import Mathlib

/-!
# Pico HSM: BIP32 / SLIP-0010 key derivation command (`cmd_bip_slip.c`)

A shallow embedding of `src/hsm/cmd_bip_slip.c`.

* Bytes, 32-bit words and big integers are natural numbers; byte buffers are lists of
  natural numbers.  A write into part of a buffer is `memcpy`.
* The library collaborators (HMAC-SHA512, SHA-256, RIPEMD-160, curve arithmetic, the KEK,
  the TLV walker, the random generator, flash) are the fields of `Env`; nothing is assumed
  about them beyond what a theorem states as a hypothesis.
* The two `do ... while` loops of the source have no iteration bound.  They are embedded with
  a fuel argument: `none` means that the loop was still running when the fuel ran out.
* Every function records the collaborator calls it makes, in order, in a list of `Call`.
-/

namespace PicoHSM

set_option maxRecDepth 20000

/-! ## Buffers and big-endian integers -/

/-- The C `memcpy (dst + off, src, src.length)` on a buffer held as a list. -/
def memcpy (dst : List Nat) (off : Nat) (src : List Nat) : List Nat :=
  dst.take off ++ src ++ dst.drop (off + src.length)

/-- The mbedtls call `mbedtls_mpi_read_binary`: an unsigned big-endian byte string as an integer. -/
def mpi_read_binary (buf : List Nat) : Nat :=
  buf.foldl (fun acc b => acc * 256 + b) 0

/-- Big-endian bytes of `v`, exactly `len` of them (the low `len` bytes of `v`). -/
def be_bytes (v len : Nat) : List Nat :=
  (List.range len).map (fun k => (v / 256 ^ (len - 1 - k)) % 256)

/-- The mbedtls call `mbedtls_mpi_write_binary (X, buf, buflen)`: the big-endian bytes of `X`
left-padded with zeros, or the error `MBEDTLS_ERR_MPI_BUFFER_TOO_SMALL` (here `none`, the buffer is
left as it was) when `X` does not fit. -/
def mpi_write_binary (X buflen : Nat) : Option (List Nat) :=
  if X < 256 ^ buflen then some (be_bytes X buflen) else none

/-- The four stores `data[33] = i >> 24; data[34] = i >> 16; data[35] = i >> 8;
data[36] = i & 0xff`, each truncated to a byte. -/
def index_bytes (i : Nat) : List Nat :=
  [(i >>> 24) % 256, (i >>> 16) % 256, (i >>> 8) % 256, i &&& 0xff]

/-! ## Data model -/

/-- A curve point (`mbedtls_ecp_point`), as its three coordinates. -/
structure mbedtls_ecp_point where
  X : Nat
  Y : Nat
  Z : Nat
deriving DecidableEq, Repr

/-- The two curve identifiers the command loads. -/
inductive mbedtls_ecp_group_id where
  | MBEDTLS_ECP_DP_NONE
  | MBEDTLS_ECP_DP_SECP256K1
  | MBEDTLS_ECP_DP_SECP256R1
deriving DecidableEq, Repr

/-- The fields of `mbedtls_ecp_group` that the command reads: the order `N` and the generator `G`. -/
structure mbedtls_ecp_group where
  id : mbedtls_ecp_group_id
  N : Nat
  G : mbedtls_ecp_point
deriving DecidableEq, Repr

/-- A key pair (`mbedtls_ecp_keypair`): group, private scalar `d`, public point `Q`.  Every scalar
this file produces comes from `mbedtls_mpi_read_binary` or `mbedtls_mpi_mod_mpi`, so it is
non-negative. -/
structure mbedtls_ecp_keypair where
  grp : mbedtls_ecp_group
  d : Nat
  Q : mbedtls_ecp_point
deriving DecidableEq, Repr

/-- The state `mbedtls_ecp_keypair_init` leaves: no group, scalar 0, the zero point. -/
def mbedtls_ecp_keypair_init : mbedtls_ecp_keypair :=
  { grp := { id := .MBEDTLS_ECP_DP_NONE, N := 0, G := ⟨0, 0, 0⟩ }, d := 0, Q := ⟨0, 0, 0⟩ }

/-- Return codes of the internal functions (`CCID_*`). -/
inductive ccid_status where
  | CCID_OK
  | CCID_ERR_NULL_PARAM
  | CCID_ERR_FILE_NOT_FOUND
  | CCID_EXEC_ERROR
  | CCID_WRONG_DATA
deriving DecidableEq, Repr

/-- Status words the command returns (`SW_*()`). -/
inductive sw_status where
  | SW_OK
  | SW_INCORRECT_P1P2
  | SW_WRONG_LENGTH
  | SW_WRONG_DATA
  | SW_EXEC_ERROR
deriving DecidableEq, Repr

/-- One element delivered by the TLV walker: `tag`, `tag_len`, and the bytes found at `tag_data`. -/
structure tlv where
  tag : Nat
  tag_len : Nat
  tag_data : List Nat
deriving DecidableEq, Repr

/-- A call to a collaborator, with the arguments that matter. -/
inductive Call where
  | md_hmac (key data : List Nat)
  | random_gen (len : Nat)
  | mkek_encrypt (buf : List Nat)
  | mkek_decrypt (buf : List Nat)
  | file_new (fid : Nat)
  | search_dynamic_file (fid : Nat)
  | file_get_data (fid : Nat)
  | flash_write_data_to_file (fid : Nat) (data : List Nat)
  | low_flash_available
  | node_derive_bip_path (path : List Nat) (path_len : Nat)
deriving DecidableEq, Repr

/-- The collaborators of the command, none of which is in `cmd_bip_slip.c`. -/
structure Env where
  /-- HMAC-SHA512 of `data` under `key` (64 bytes). -/
  md_hmac_sha512 : List Nat → List Nat → List Nat
  /-- SHA-256 (32 bytes). -/
  md_sha256 : List Nat → List Nat
  /-- RIPEMD-160 (20 bytes). -/
  md_ripemd160 : List Nat → List Nat
  /-- The bytes `mbedtls_ecp_point_write_binary` writes in compressed format; their number is `olen`. -/
  ecp_point_write_binary : mbedtls_ecp_group → mbedtls_ecp_point → List Nat
  /-- The point `m * P` of `mbedtls_ecp_mul`. -/
  ecp_mul : mbedtls_ecp_group → Nat → mbedtls_ecp_point → mbedtls_ecp_point
  /-- The group `mbedtls_ecp_group_load` loads. -/
  ecp_group_load : mbedtls_ecp_group_id → mbedtls_ecp_group
  /-- In-place KEK encryption of a buffer; `none` is a return code other than `CCID_OK`. -/
  mkek_encrypt : List Nat → Option (List Nat)
  /-- In-place KEK decryption of a buffer; `none` is a return code other than `CCID_OK`. -/
  mkek_decrypt : List Nat → Option (List Nat)
  /-- The bytes the random generator delivers. -/
  random_gen : Nat → List Nat
  /-- The elements `walk_tlv` delivers over a payload, one per call, until it returns false. -/
  walk_tlv : List Nat → List tlv
  /-- Whether `flash_write_data_to_file` returns `CCID_OK`. -/
  flash_write_ok : Nat → List Nat → Bool
  /-- The file identifier base `EF_MASTER_SEED`. -/
  EF_MASTER_SEED : Nat
  /-- Indeterminate contents of local arrays that are declared without an initialiser. -/
  stack : Nat → Nat

/-- A local byte array of `n` bytes declared without an initialiser. -/
def uninit (E : Env) (n : Nat) : List Nat :=
  (List.range n).map E.stack

/-! ## `node_derive_bip_child` -/

/-- The `do ... while` loop of `node_derive_bip_child` (lines 45-56).  `data` is the 37-byte
buffer on entry to an iteration; the result is `kchild`, the HMAC output `I` of the last
iteration, the buffer and the calls made. -/
def bip_child_loop (E : Env) (cpar : List Nat) (d N i : Nat) :
    Nat → List Nat → List Call → Option (Nat × List Nat × List Nat × List Call)
  | 0, _, _ => none
  | fuel + 1, data, calls =>
    let data := memcpy data 33 (index_bytes i)
    let I := E.md_hmac_sha512 cpar data
    let calls := calls ++ [Call.md_hmac cpar data]
    let il := mpi_read_binary (I.take 32)
    let kchild := (il + d) % N
    let data := memcpy (memcpy data 0 [0x01]) 1 ((I.drop 32).take 32)
    if il = 0 ∨ kchild = 0 then bip_child_loop E cpar d N i fuel data calls
    else some (kchild, I, data, calls)

/-- What `node_derive_bip_child` returns and leaves in its two output parameters. -/
structure child_result where
  r : ccid_status
  child : mbedtls_ecp_keypair
  cchild : List Nat
  calls : List Call
deriving DecidableEq, Repr

/-- Lines 45-62 of `node_derive_bip_child`: the loop, then the stores into `child` and `cchild`. -/
def bip_child_finish (E : Env) (fuel : Nat) (parent : mbedtls_ecp_keypair) (cpar : List Nat)
    (i : Nat) (child : mbedtls_ecp_keypair) (data : List Nat) : Option child_result :=
  match bip_child_loop E cpar parent.d parent.grp.N i fuel data [] with
  | none => none
  | some (kchild, I, _, calls) =>
    some { r := .CCID_OK
           child := { child with d := kchild, Q := E.ecp_mul child.grp kchild child.grp.G }
           cchild := (I.drop 32).take 32
           calls := calls }

/-- The function `node_derive_bip_child (parent, cpar, i, child, cchild)`.  `child` and `cchild`
are the contents of the output parameters before the call. -/
def node_derive_bip_child (E : Env) (fuel : Nat) (parent : mbedtls_ecp_keypair)
    (cpar : List Nat) (i : Nat) (child : mbedtls_ecp_keypair) (cchild : List Nat) :
    Option child_result :=
  let data := uninit E 37
  if 0x80000000 ≤ i then
    if parent.d = 0 then
      some { r := .CCID_ERR_NULL_PARAM, child := child, cchild := cchild, calls := [] }
    else
      let data := memcpy data 0 [0x00]
      let data := match mpi_write_binary parent.d 32 with
        | some bs => memcpy data 1 bs
        | none => data
      bip_child_finish E fuel parent cpar i child data
  else
    let data := memcpy data 0 ((E.ecp_point_write_binary parent.grp parent.Q).take 33)
    bip_child_finish E fuel parent cpar i child data

/-! ## `node_fingerprint` -/

/-- The function `node_fingerprint (ctx, fingerprint)`: the 4 bytes it stores in `fingerprint`.
The 33-byte `buffer` is written by the point serialiser, then by SHA-256 over all 33 bytes, then
by RIPEMD-160 over its first 32 bytes. -/
def node_fingerprint (E : Env) (ctx : mbedtls_ecp_keypair) : List Nat :=
  let buffer := memcpy (uninit E 33) 0 ((E.ecp_point_write_binary ctx.grp ctx.Q).take 33)
  let buffer := memcpy buffer 0 (E.md_sha256 buffer)
  let buffer := memcpy buffer 0 (E.md_ripemd160 (buffer.take 32))
  buffer.take 4

/-! ## `node_derive_bip_path` -/

/-- What `node_derive_bip_path` returns and leaves in its three output parameters. -/
structure path_result where
  r : ccid_status
  ctx : mbedtls_ecp_keypair
  chain : List Nat
  fingerprint : List Nat
  calls : List Call
deriving DecidableEq, Repr

/-- The `for` loop of `node_derive_bip_path` (lines 101-106) over the indices `path[1]`,
..., `path[path_len - 1]` that are still to be consumed. -/
def bip_path_loop (E : Env) (fuel : Nat) :
    List Nat → mbedtls_ecp_keypair → List Nat → List Nat → List Call → Option path_result
  | [], ctx, chain, fingerprint, calls =>
    some { r := .CCID_OK, ctx := ctx, chain := chain, fingerprint := fingerprint, calls := calls }
  | i :: rest, ctx, chain, _, calls =>
    let fingerprint := node_fingerprint E ctx
    match node_derive_bip_child E fuel ctx chain i ctx chain with
    | none => none
    | some c =>
      if c.r ≠ .CCID_OK then
        some { r := c.r, ctx := c.child, chain := c.cchild, fingerprint := fingerprint,
               calls := calls ++ c.calls }
      else bip_path_loop E fuel rest c.child c.cchild fingerprint (calls ++ c.calls)

/-- The function `node_derive_bip_path (path, path_len, ctx, chain, fingerprint)`.  `files` gives
the data of each dynamic file that has data; `chain` and `fingerprint` are the contents of the
output parameters before the call. -/
def node_derive_bip_path (E : Env) (fuel : Nat) (files : Nat → Option (List Nat))
    (path : List Nat) (path_len : Nat) (chain fingerprint : List Nat) : Option path_result :=
  let ctx := mbedtls_ecp_keypair_init
  let fid := E.EF_MASTER_SEED ||| path.getD 0 0
  let calls := [Call.search_dynamic_file fid]
  match files fid with
  | none =>
    some { r := .CCID_ERR_FILE_NOT_FOUND, ctx := ctx, chain := chain, fingerprint := fingerprint,
           calls := calls }
  | some file_data =>
    let mkey := memcpy (uninit E 65) 0 (file_data.take 65)
    let calls := calls ++ [Call.file_get_data fid, Call.mkek_decrypt (mkey.drop 1)]
    match E.mkek_decrypt (mkey.drop 1) with
    | none =>
      some { r := .CCID_EXEC_ERROR, ctx := ctx, chain := chain, fingerprint := fingerprint,
             calls := calls }
    | some plain =>
      let mkey := memcpy mkey 1 plain
      if mkey.getD 0 0 = 0x1 ∨ mkey.getD 0 0 = 0x2 then
        let grp := if mkey.getD 0 0 = 0x1 then E.ecp_group_load .MBEDTLS_ECP_DP_SECP256K1
          else E.ecp_group_load .MBEDTLS_ECP_DP_SECP256R1
        let d := mpi_read_binary ((mkey.drop 1).take 32)
        let chain := (mkey.drop 33).take 32
        let ctx := { grp := grp, d := d, Q := E.ecp_mul grp d grp.G }
        let fingerprint := [0, 0, 0, 0]
        bip_path_loop E fuel ((path.take path_len).drop 1) ctx chain fingerprint calls
      else
        some { r := .CCID_WRONG_DATA, ctx := ctx, chain := chain, fingerprint := fingerprint,
               calls := calls }

/-! ## `cmd_bip_slip` -/

/-- The string `k1_seed`. -/
def k1_seed : List Nat := "Bitcoin seed".toList.map Char.toNat

/-- The string `p1_seed`. -/
def p1_seed : List Nat := "Nist256p1 seed".toList.map Char.toNat

/-- The constant `MAX_PATH_DEPTH`. -/
def MAX_PATH_DEPTH : Nat := 16

/-- The command as received: `P1`, `P2` and the payload `apdu.data` (`apdu.nc` is its length). -/
structure apdu_t where
  p1 : Nat
  p2 : Nat
  data : List Nat
deriving DecidableEq, Repr

/-- The state the command works on: the dynamic files that have data, the response buffer
`res_APDU` with its length `res_APDU_size`, and the collaborator calls made so far. -/
structure State where
  files : Nat → Option (List Nat)
  res_APDU : Nat → Nat
  res_APDU_size : Nat
  calls : List Call

/-- A store of the bytes `src` into memory at offset `off`. -/
def store (mem : Nat → Nat) (off : Nat) (src : List Nat) : Nat → Nat :=
  fun k => if off ≤ k ∧ k < off + src.length then src.getD (k - off) 0 else mem k

/-- The first `n` bytes of a memory. -/
def load (mem : Nat → Nat) (n : Nat) : List Nat :=
  (List.range n).map mem

/-- How the TLV loop of the command ends. -/
inductive parse_result where
  /-- An element is rejected: `return SW_WRONG_DATA ()`. -/
  | wrong_data
  /-- An accepted element is stored past the end of `path[MAX_PATH_DEPTH]`, at index `pos`. -/
  | out_of_bounds (pos : Nat)
  /-- The walker is exhausted; `path` is the array and `pos` the number of elements stored. -/
  | parsed (path : List Nat) (pos : Nat)
deriving DecidableEq, Repr

/-- The value stored by `path[pos] = (tag_data[0] << 24) | (tag_data[1] << 16) |
(tag_data[2] << 8) | tag_data[3]`.  The bytes are promoted to `int`, so that the expression is a
32-bit two's complement `int` (negative when `tag_data[0] >= 0x80`); the store converts it to
`uint32_t`, that is, reduces it modulo `2 ^ 32`. -/
def path_word (tag_data : List Nat) : Nat :=
  ((tag_data.getD 0 0 <<< 24) ||| (tag_data.getD 1 0 <<< 16) ||| (tag_data.getD 2 0 <<< 8)
    ||| tag_data.getD 3 0) % 2 ^ 32

/-- The TLV loop of the command (lines 166-176) over the elements the walker still has to
deliver.  The source has no test of `pos` against `MAX_PATH_DEPTH`; a store at an index
past the array ends the embedding with `out_of_bounds`. -/
def parse_path : List tlv → List Nat → Nat → parse_result
  | [], path, pos => .parsed path pos
  | e :: rest, path, pos =>
    if e.tag ≠ 0x02 ∨ (pos = 0 ∧ e.tag_len ≠ 1) ∨ (pos ≠ 0 ∧ e.tag_len ≠ 4) then .wrong_data
    else if MAX_PATH_DEPTH ≤ pos then .out_of_bounds pos
    else if pos = 0 ∧ e.tag_len = 1 then
      parse_path rest (path.set pos (e.tag_data.getD 0 0)) (pos + 1)
    else if pos ≠ 0 ∧ e.tag_len = 4 then
      parse_path rest (path.set pos (path_word e.tag_data)) (pos + 1)
    else parse_path rest path (pos + 1)

/-- The `do ... while` loop of master generation (lines 138-142).  `seed` is the 64-byte buffer
`mkey + 1`, which the HMAC reads (its first `seed_len` bytes) and overwrites. -/
def master_loop (E : Env) (key_seed : List Nat) (N : Nat) :
    Nat → List Nat → Nat → List Call → Option (List Nat × List Call)
  | 0, _, _, _ => none
  | fuel + 1, seed, seed_len, calls =>
    let I := E.md_hmac_sha512 key_seed (seed.take seed_len)
    let calls := calls ++ [Call.md_hmac key_seed (seed.take seed_len)]
    let seed := memcpy seed 0 I
    let il := mpi_read_binary (seed.take 32)
    if il = 0 ∨ ¬ il < N then master_loop E key_seed N fuel seed 64 calls
    else some (seed, calls)

/-- How a run of the command ends. -/
inductive cmd_result where
  /-- The command returns a status word and leaves a state. -/
  | returns (sw : sw_status) (s : State)
  /-- The TLV loop stores past the end of `path`, at index `pos`. -/
  | out_of_bounds (pos : Nat)

/-- Master generation, lines 113-155 (`p1` is 1 or 2). -/
def cmd_generate (E : Env) (fuel : Nat) (apdu : apdu_t) (s : State) : Option cmd_result :=
  if 10 ≤ apdu.p2 then some (.returns .SW_INCORRECT_P1P2 s)
  else
    let seed := (uninit E 65).drop 1
    let grp := if apdu.p1 = 0x1 then E.ecp_group_load .MBEDTLS_ECP_DP_SECP256K1
      else E.ecp_group_load .MBEDTLS_ECP_DP_SECP256R1
    let key_seed := if apdu.p1 = 0x1 then k1_seed else p1_seed
    let seed_len := if apdu.data.length = 0 then 64 else min apdu.data.length 64
    let seed := if apdu.data.length = 0 then memcpy seed 0 ((E.random_gen 64).take 64)
      else memcpy seed 0 (apdu.data.take seed_len)
    let calls := if apdu.data.length = 0 then s.calls ++ [Call.random_gen 64] else s.calls
    match master_loop E key_seed grp.N fuel seed seed_len calls with
    | none => none
    | some (seed, calls) =>
      let fid := E.EF_MASTER_SEED ||| apdu.p2
      let calls := calls ++ [Call.file_new fid, Call.mkek_encrypt seed]
      match E.mkek_encrypt seed with
      | none => some (.returns .SW_EXEC_ERROR { s with calls := calls })
      | some cipher =>
        let mkey := apdu.p1 :: memcpy seed 0 cipher
        let calls := calls ++ [Call.flash_write_data_to_file fid mkey]
        if E.flash_write_ok fid mkey then
          some (.returns .SW_OK
            { s with files := fun f => if f = fid then some mkey else s.files f
                     calls := calls ++ [Call.low_flash_available] })
        else some (.returns .SW_EXEC_ERROR { s with calls := calls })

/-- The response the command builds after a successful derivation, lines 184-206. -/
def encode_response (E : Env) (path : List Nat) (pos : Nat) (ctx : mbedtls_ecp_keypair)
    (chain fgpt : List Nat) (s : State) : State :=
  let res := store s.res_APDU 0 [0x04, 0x88, 0xB2, 0x1E]
  let size := s.res_APDU_size + 4
  let res := store res size [(pos + 255) % 256]
  let size := size + 1
  let res := store res size (fgpt.take 4)
  let size := size + 4
  let res := if 1 < pos then store res size (index_bytes (path.getD (pos - 1) 0))
    else store res size [0, 0, 0, 0]
  let size := size + 4
  let res := store res size (chain.take 32)
  let size := size + 32
  let pubkey := (E.ecp_point_write_binary ctx.grp ctx.Q).take 33
  let res := store res size pubkey
  let size := size + pubkey.length
  { s with res_APDU := res, res_APDU_size := size }

/-- Path derivation, lines 158-206 (`p1` is 3). -/
def cmd_derive (E : Env) (fuel : Nat) (apdu : apdu_t) (s : State) : Option cmd_result :=
  if apdu.data.length = 0 then some (.returns .SW_WRONG_LENGTH s)
  else
    match parse_path (E.walk_tlv apdu.data) (List.replicate MAX_PATH_DEPTH 0) 0 with
    | .wrong_data => some (.returns .SW_WRONG_DATA s)
    | .out_of_bounds pos => some (.out_of_bounds pos)
    | .parsed path pos =>
      match node_derive_bip_path E fuel s.files path pos (uninit E 32) (uninit E 4) with
      | none => none
      | some p =>
        let s := { s with calls := s.calls ++ [Call.node_derive_bip_path path pos] ++ p.calls }
        if p.r ≠ .CCID_OK then some (.returns .SW_EXEC_ERROR s)
        else some (.returns .SW_OK (encode_response E path pos p.ctx p.chain p.fingerprint s))

/-- The command `cmd_bip_slip ()`. -/
def cmd_bip_slip (E : Env) (fuel : Nat) (apdu : apdu_t) (s : State) : Option cmd_result :=
  if apdu.p1 = 0x1 ∨ apdu.p1 = 0x2 then cmd_generate E fuel apdu s
  else if apdu.p1 = 0x3 then cmd_derive E fuel apdu s
  else some (.returns .SW_OK s)

/-! ## Concrete collaborators, used to run the embedding on examples -/

/-- The order of secp256k1. -/
def secp256k1_N : Nat := 0xFFFFFFFFFFFFFFFFFFFFFFFFFFFFFFFEBAAEDCE6AF48A03BBFD25E8CD0364141

/-- The order of secp256r1. -/
def secp256r1_N : Nat := 0xFFFFFFFF00000000FFFFFFFFFFFFFFFFBCE6FAADA7179E84F3B9CAC2FC632551

/-- A walker over single-byte tags and lengths: each call reads a tag byte and a length byte and
hands out the following `tag_len` bytes, and it stops once the payload is consumed. -/
def demo_walk : Nat → List Nat → List tlv
  | 0, _ => []
  | _, [] => []
  | _, [t] => [{ tag := t, tag_len := 0, tag_data := [] }]
  | fuel + 1, t :: l :: rest =>
    { tag := t, tag_len := l, tag_data := rest.take l } :: demo_walk fuel (rest.drop l)

/-- A group loader that knows the two orders and uses a toy generator. -/
def demo_group_load : mbedtls_ecp_group_id → mbedtls_ecp_group
  | .MBEDTLS_ECP_DP_SECP256K1 =>
    { id := .MBEDTLS_ECP_DP_SECP256K1, N := secp256k1_N, G := ⟨3, 5, 1⟩ }
  | .MBEDTLS_ECP_DP_SECP256R1 =>
    { id := .MBEDTLS_ECP_DP_SECP256R1, N := secp256r1_N, G := ⟨7, 11, 1⟩ }
  | .MBEDTLS_ECP_DP_NONE => { id := .MBEDTLS_ECP_DP_NONE, N := 0, G := ⟨0, 0, 0⟩ }

/-- A collaborator set with toy cryptography and the HMAC given as an argument: digests are
checksums, point multiplication is coordinate-wise, the KEK flips the low bit of each byte. -/
def demo_env (hmac : List Nat → List Nat → List Nat) : Env where
  md_hmac_sha512 := hmac
  md_sha256 := fun m => (List.range 32).map (fun k => (m.sum * (k + 3) + 0x5A + k) % 256)
  md_ripemd160 := fun m => (List.range 20).map (fun k => (m.sum * (k + 7) + 0xC1 + k) % 256)
  ecp_point_write_binary := fun _ Q => (2 + Q.Y % 2) :: be_bytes Q.X 32
  ecp_mul := fun g m P => ⟨(m * P.X) % 2 ^ 256, (m * P.Y) % 2 ^ 256, g.G.Z⟩
  ecp_group_load := demo_group_load
  mkek_encrypt := fun b => some (b.map (fun x => x ^^^ 1))
  mkek_decrypt := fun b => some (b.map (fun x => x ^^^ 1))
  random_gen := fun n => (List.range n).map (fun k => (k * 37 + 11) % 256)
  walk_tlv := fun payload => demo_walk payload.length payload
  flash_write_ok := fun _ _ => true
  EF_MASTER_SEED := 0x1110
  stack := fun k => (k * 29 + 0xA5) % 256

/-- An HMAC that yields `IL = 0` for a first-round input and `IL = 5` for a retry input (one
that starts with the byte `0x01`); `IR` is constant in each case. -/
def hmac_retry_once (_key data : List Nat) : List Nat :=
  if data.head? = some 1 then be_bytes 5 32 ++ List.replicate 32 0x77
  else be_bytes 0 32 ++ List.replicate 32 0x99

/-- An HMAC whose left half is the largest 256-bit integer, whatever the input. -/
def hmac_all_ones (_key _data : List Nat) : List Nat :=
  List.replicate 32 0xFF ++ List.replicate 32 0x42

/-- An HMAC with `IL = 1000` and an `IR` that counts up from 0. -/
def hmac_small (_key _data : List Nat) : List Nat :=
  be_bytes 1000 32 ++ List.range 32

/-- A state with no file, a zeroed response buffer and no call made. -/
def empty_state : State :=
  { files := fun _ => none, res_APDU := fun _ => 0, res_APDU_size := 0, calls := [] }

/-- A key pair on secp256r1 with scalar 1 (toy public point). -/
def demo_parent : mbedtls_ecp_keypair :=
  { grp := demo_group_load .MBEDTLS_ECP_DP_SECP256R1, d := 1, Q := ⟨7, 11, 1⟩ }

/-- The first HMAC input of child derivation as the specification words it: `0x00`, the parent
scalar as 32 big-endian bytes and the index as 4 big-endian bytes for a hardened index, the
compressed parent public key and the index as 4 big-endian bytes otherwise. -/
def spec_child_data (E : Env) (parent : mbedtls_ecp_keypair) (i : Nat) : List Nat :=
  if 0x80000000 ≤ i then 0x00 :: be_bytes parent.d 32 ++ be_bytes i 4
  else E.ecp_point_write_binary parent.grp parent.Q ++ be_bytes i 4

/-- The result of deriving the hardened child 0x80000001 of `demo_parent` under an HMAC that
is rejected once. -/
def demo_child : child_result :=
  { r := .CCID_OK
    child := { grp := demo_group_load .MBEDTLS_ECP_DP_SECP256R1, d := 6, Q := ⟨42, 66, 1⟩ }
    cchild := List.replicate 32 0x77
    calls := [Call.md_hmac (List.replicate 32 1)
                (0x00 :: be_bytes 1 32 ++ [0x80, 0, 0, 1]),
              Call.md_hmac (List.replicate 32 1)
                (0x01 :: List.replicate 32 0x99 ++ [0x80, 0, 0, 1])] }

/-- The status word of a run that returns. -/
def returned_sw : Option cmd_result → Option sw_status
  | some (.returns sw _) => some sw
  | _ => none

/-- The state a run leaves when it returns (`dflt` otherwise). -/
def returned_state (dflt : State) : Option cmd_result → State
  | some (.returns _ s) => s
  | _ => dflt

/-- The state after generating a secp256r1 master in slot 0 from random bytes (Scenario A),
under the HMAC `hmac_small`. -/
def demo_master_state : State :=
  returned_state empty_state
    (cmd_bip_slip (demo_env hmac_small) 1 { p1 := 0x2, p2 := 0, data := [] } empty_state)

/-- The derive-path request for the path `[0x00, 0x80000001]` (Scenario C). -/
def demo_derive_apdu : apdu_t :=
  { p1 := 0x3, p2 := 0, data := [0x02, 0x01, 0x00, 0x02, 0x04, 0x80, 0x00, 0x00, 0x01] }

/-- The state after the derive-path request `demo_derive_apdu` on `demo_master_state`. -/
def demo_derive_state : State :=
  returned_state empty_state
    (cmd_bip_slip (demo_env hmac_small) 1 demo_derive_apdu
      { demo_master_state with calls := [] })

/-- The result of `node_derive_bip_path` for the path `[0x00, 0x80000001]` on
`demo_master_state`. -/
def demo_path_result : path_result :=
  (node_derive_bip_path (demo_env hmac_small) 1 demo_master_state.files [0x00, 0x80000001] 2
    (uninit (demo_env hmac_small) 32) (uninit (demo_env hmac_small) 4)).getD
    { r := .CCID_EXEC_ERROR, ctx := mbedtls_ecp_keypair_init, chain := [], fingerprint := [],
      calls := [] }

/-- An element that the path rules reject at position `k`: its tag is not `0x02`, or it is
element 0 and its length is not 1, or it is a later element and its length is not 4. -/
def bad_element (k : Nat) (e : tlv) : Prop :=
  e.tag ≠ 0x02 ∨ (k = 0 ∧ e.tag_len ≠ 1) ∨ (k ≠ 0 ∧ e.tag_len ≠ 4)

instance (k : Nat) (e : tlv) : Decidable (bad_element k e) := by
  unfold bad_element
  infer_instance

/-- The path the specification assigns to the elements found from position `pos` on: the single
value byte of element 0, and for a later element its value bytes read as a big-endian
integer. -/
def spec_path (pos : Nat) : List tlv → List Nat
  | [] => []
  | e :: rest =>
    (if pos = 0 then e.tag_data.getD 0 0 else mpi_read_binary e.tag_data)
      :: spec_path (pos + 1) rest

/-- A payload that holds a selector and one hardened index whose first byte is `0xFF`. -/
def demo_payload_high : List Nat := [0x02, 0x01, 0x07, 0x02, 0x04, 0xFF, 0x00, 0x80, 0x01]

/-- A payload of 17 well-formed elements: the selector 0 and 16 times the index 1. -/
def demo_payload_17 : List Nat :=
  [0x02, 0x01, 0x00] ++ (List.replicate 16 [0x02, 0x04, 0x00, 0x00, 0x00, 0x01]).flatten

/-- The key seed that master generation uses for the curve selector `p1`. -/
def key_seed_of (p1 : Nat) : List Nat :=
  if p1 = 0x1 then k1_seed else p1_seed

/-- The curve that master generation loads for the curve selector `p1`. -/
def curve_of (p1 : Nat) : mbedtls_ecp_group_id :=
  if p1 = 0x1 then .MBEDTLS_ECP_DP_SECP256K1 else .MBEDTLS_ECP_DP_SECP256R1

/-- The collaborators of `demo_env hmac_small` with a KEK whose decryption fails. -/
def demo_env_kek_fail : Env :=
  { demo_env hmac_small with mkek_decrypt := fun _ => none }

/-- A state whose only file is the master file of slot 0, holding `record`. -/
def state_with_master (record : List Nat) : State :=
  { empty_state with files := fun f => if f = 0x1110 then some record else none }

/-- The derive-path request for the depth-0 path `[0x05]`. -/
def demo_slot5_apdu : apdu_t :=
  { p1 := 0x3, p2 := 0, data := [0x02, 0x01, 0x05] }

/-- A key pair on secp256r1 with the scalar 0. -/
def demo_parent_zero : mbedtls_ecp_keypair :=
  { grp := demo_group_load .MBEDTLS_ECP_DP_SECP256R1, d := 0, Q := ⟨0, 0, 1⟩ }

/-- A generate-master request for secp256k1, slot 0, with a 65-byte caller seed. -/
def demo_long_seed_apdu : apdu_t :=
  { p1 := 0x1, p2 := 0, data := List.replicate 64 0xAA ++ [0xBB] }

/-- The state after the request `demo_slot5_apdu`, which fails, on `demo_derive_state`. -/
def demo_error_state : State :=
  returned_state empty_state
    (cmd_bip_slip (demo_env hmac_small) 1 demo_slot5_apdu demo_derive_state)

/-- A derive-path request whose second element has the tag `0x04`. -/
def demo_bad_tag_apdu : apdu_t :=
  { p1 := 0x3, p2 := 0, data := [0x02, 0x01, 0x00, 0x04, 0x04, 0x80, 0x00, 0x00, 0x01] }

/-- An HMAC whose output is 64 zero bytes, whatever the input: `IL = 0` on every call. -/
def hmac_zero (_key _data : List Nat) : List Nat :=
  List.replicate 64 0

/-- The value of `IL` for the HMAC, under the key `cpar`, of the input `a`. -/
def IL_of (E : Env) (cpar a : List Nat) : Nat :=
  mpi_read_binary ((E.md_hmac_sha512 cpar a).take 32)

/-- The bytes `IR` for the HMAC, under the key `cpar`, of the input `a`. -/
def IR_of (E : Env) (cpar a : List Nat) : List Nat :=
  ((E.md_hmac_sha512 cpar a).drop 32).take 32

/-- The retry relation of child derivation between two successive HMAC inputs: the candidate
for the first input is rejected by the test of the loop, and the second input is the 37 bytes
`0x01`, `IR` of the first output, and the index as 4 big-endian bytes. -/
def child_retry (E : Env) (cpar : List Nat) (d N i : Nat) (a b : List Nat) : Prop :=
  (IL_of E cpar a = 0 ∨ (IL_of E cpar a + d) % N = 0) ∧
  b = 0x01 :: IR_of E cpar a ++ be_bytes i 4 ∧ b.length = 37

/-- The derive-path request for the depth-0 path `[0x00]` (Scenario B). -/
def demo_root_apdu : apdu_t :=
  { p1 := 0x3, p2 := 0, data := [0x02, 0x01, 0x00] }

/-! ## Lemmas on buffers -/

theorem uninit_length (E : Env) (n : Nat) : (uninit E n).length = n := by
  simp [uninit]

theorem be_bytes_length (v len : Nat) : (be_bytes v len).length = len := by
  simp [be_bytes]

theorem memcpy_zero (dst src : List Nat) : memcpy dst 0 src = src ++ dst.drop src.length := by
  simp [memcpy]

theorem memcpy_append_left (pre rest src : List Nat) :
    memcpy (pre ++ rest) pre.length src = pre ++ src ++ rest.drop src.length := by
  simp [memcpy]

theorem memcpy_length_ge (dst : List Nat) (off : Nat) (src : List Nat) (h : off ≤ dst.length) :
    dst.length ≤ (memcpy dst off src).length := by
  simp [memcpy]
  omega

theorem index_bytes_eq (i : Nat) : index_bytes i = be_bytes i 4 := by
  have h : i &&& 0xff = i % 2 ^ 8 := Nat.and_pow_two_sub_one_eq_mod i 8
  simp [index_bytes, be_bytes, List.range, List.range.loop, Nat.shiftRight_eq_div_pow, h]

/-- The buffer `data` on entry to the loop for a hardened index. -/
theorem data_hardened (E : Env) (d i : Nat) :
    memcpy (memcpy (memcpy (uninit E 37) 0 [0x00]) 1 (be_bytes d 32)) 33 (index_bytes i)
      = 0x00 :: be_bytes d 32 ++ be_bytes i 4 := by
  have h1 : memcpy (uninit E 37) 0 [0x00] = [0x00] ++ (uninit E 37).drop 1 := by
    rw [memcpy_zero]; rfl
  have h2 : memcpy ([0x00] ++ (uninit E 37).drop 1) 1 (be_bytes d 32)
      = ([0x00] ++ be_bytes d 32) ++ (uninit E 37).drop 33 := by
    have := memcpy_append_left [0x00] ((uninit E 37).drop 1) (be_bytes d 32)
    simpa [be_bytes_length] using this
  have h3 : memcpy (([0x00] ++ be_bytes d 32) ++ (uninit E 37).drop 33) 33 (index_bytes i)
      = ([0x00] ++ be_bytes d 32) ++ index_bytes i ++ ((uninit E 37).drop 33).drop 4 := by
    have := memcpy_append_left ([0x00] ++ be_bytes d 32) ((uninit E 37).drop 33) (index_bytes i)
    simpa [be_bytes_length, index_bytes] using this
  have h4 : ((uninit E 37).drop 33).drop 4 = [] := by
    simp [uninit_length]
  rw [h1, h2, h3, h4, index_bytes_eq]
  simp

/-- The buffer `data` on entry to the loop for a normal index, when the serialiser writes
33 bytes. -/
theorem data_normal (E : Env) (pt : List Nat) (i : Nat) (hpt : pt.length = 33) :
    memcpy (memcpy (uninit E 37) 0 (pt.take 33)) 33 (index_bytes i) = pt ++ be_bytes i 4 := by
  have h0 : pt.take 33 = pt := by
    rw [← hpt]; exact List.take_length pt
  have h1 : memcpy (uninit E 37) 0 pt = pt ++ (uninit E 37).drop 33 := by
    rw [memcpy_zero, hpt]
  have h2 : memcpy (pt ++ (uninit E 37).drop 33) 33 (index_bytes i)
      = pt ++ index_bytes i ++ ((uninit E 37).drop 33).drop 4 := by
    have := memcpy_append_left pt ((uninit E 37).drop 33) (index_bytes i)
    simpa [hpt, index_bytes] using this
  have h4 : ((uninit E 37).drop 33).drop 4 = [] := by
    simp [uninit_length]
  rw [h0, h1, h2, h4, index_bytes_eq]
  simp

/-! ## Lemmas on `node_derive_bip_child` -/

/-- One iteration of the loop of `node_derive_bip_child`. -/
theorem bip_child_loop_step (E : Env) (cpar : List Nat) (d N i fuel : Nat) (data : List Nat)
    (calls : List Call) :
    bip_child_loop E cpar d N i (fuel + 1) data calls =
      if mpi_read_binary ((E.md_hmac_sha512 cpar (memcpy data 33 (index_bytes i))).take 32) = 0 ∨
          (mpi_read_binary ((E.md_hmac_sha512 cpar (memcpy data 33 (index_bytes i))).take 32) + d)
            % N = 0 then
        bip_child_loop E cpar d N i fuel
          (memcpy (memcpy (memcpy data 33 (index_bytes i)) 0 [0x01]) 1
            (((E.md_hmac_sha512 cpar (memcpy data 33 (index_bytes i))).drop 32).take 32))
          (calls ++ [Call.md_hmac cpar (memcpy data 33 (index_bytes i))])
      else
        some ((mpi_read_binary ((E.md_hmac_sha512 cpar (memcpy data 33 (index_bytes i))).take 32)
                + d) % N,
              E.md_hmac_sha512 cpar (memcpy data 33 (index_bytes i)),
              memcpy (memcpy (memcpy data 33 (index_bytes i)) 0 [0x01]) 1
                (((E.md_hmac_sha512 cpar (memcpy data 33 (index_bytes i))).drop 32).take 32),
              calls ++ [Call.md_hmac cpar (memcpy data 33 (index_bytes i))]) := by
  rfl

/-- What holds of the values the loop of `node_derive_bip_child` ends with. -/
theorem bip_child_loop_exit (E : Env) (cpar : List Nat) (d N i : Nat) :
    ∀ (fuel : Nat) (data : List Nat) (calls : List Call) (k : Nat) (I data' : List Nat)
      (calls' : List Call),
      bip_child_loop E cpar d N i fuel data calls = some (k, I, data', calls') →
      k ≠ 0 ∧ k = (mpi_read_binary (I.take 32) + d) % N ∧ mpi_read_binary (I.take 32) ≠ 0 := by
  intro fuel
  induction fuel with
  | zero => intro data calls k I data' calls' h; simp [bip_child_loop] at h
  | succ n ih =>
    intro data calls k I data' calls' h
    rw [bip_child_loop_step] at h
    split at h
    · exact ih _ _ _ _ _ _ h
    · rename_i hc
      simp only [Option.some.injEq, Prod.mk.injEq] at h
      obtain ⟨hk, hI, -, -⟩ := h
      subst hI
      subst hk
      refine ⟨fun h0 => hc (Or.inr h0), rfl, fun h0 => hc (Or.inl h0)⟩

/-- A successful `bip_child_finish` comes from a finished loop. -/
theorem bip_child_finish_some (E : Env) (fuel : Nat) (parent : mbedtls_ecp_keypair)
    (cpar : List Nat) (i : Nat) (child : mbedtls_ecp_keypair) (data : List Nat)
    (res : child_result) (h : bip_child_finish E fuel parent cpar i child data = some res) :
    ∃ k I data' calls,
      bip_child_loop E cpar parent.d parent.grp.N i fuel data [] = some (k, I, data', calls) ∧
      res = { r := .CCID_OK
              child := { child with d := k, Q := E.ecp_mul child.grp k child.grp.G }
              cchild := (I.drop 32).take 32
              calls := calls } := by
  unfold bip_child_finish at h
  split at h
  · simp at h
  · rename_i k I data' calls heq
    exact ⟨k, I, data', calls, heq, by simpa using h.symm⟩

/-- The child scalar of a successful `bip_child_finish` is non-zero and reduced. -/
theorem bip_child_finish_range (E : Env) (fuel : Nat) (parent : mbedtls_ecp_keypair)
    (cpar : List Nat) (i : Nat) (child : mbedtls_ecp_keypair) (data : List Nat)
    (res : child_result) (hN : 0 < parent.grp.N)
    (h : bip_child_finish E fuel parent cpar i child data = some res) :
    0 < res.child.d ∧ res.child.d < parent.grp.N := by
  obtain ⟨k, I, data', calls, hl, rfl⟩ := bip_child_finish_some E fuel parent cpar i child data res h
  obtain ⟨hk0, hk, -⟩ := bip_child_loop_exit E cpar parent.d parent.grp.N i fuel data [] k I data'
    calls hl
  refine ⟨Nat.pos_of_ne_zero hk0, ?_⟩
  show k < parent.grp.N
  rw [hk]
  exact Nat.mod_lt _ hN

/-- When the first HMAC output passes both tests of the loop, `bip_child_finish` returns after
one iteration, for every positive fuel. -/
theorem bip_child_finish_first (E : Env) (fuel : Nat) (parent : mbedtls_ecp_keypair)
    (cpar : List Nat) (i : Nat) (child : mbedtls_ecp_keypair) (data : List Nat)
    (hIL : mpi_read_binary ((E.md_hmac_sha512 cpar (memcpy data 33 (index_bytes i))).take 32) ≠ 0)
    (hk : (mpi_read_binary ((E.md_hmac_sha512 cpar (memcpy data 33 (index_bytes i))).take 32)
            + parent.d) % parent.grp.N ≠ 0) :
    bip_child_finish E (fuel + 1) parent cpar i child data =
      some { r := .CCID_OK
             child :=
               { grp := child.grp
                 d := (mpi_read_binary
                         ((E.md_hmac_sha512 cpar (memcpy data 33 (index_bytes i))).take 32)
                       + parent.d) % parent.grp.N
                 Q := E.ecp_mul child.grp
                   ((mpi_read_binary
                       ((E.md_hmac_sha512 cpar (memcpy data 33 (index_bytes i))).take 32)
                     + parent.d) % parent.grp.N) child.grp.G }
             cchild := ((E.md_hmac_sha512 cpar (memcpy data 33 (index_bytes i))).drop 32).take 32
             calls := [Call.md_hmac cpar (memcpy data 33 (index_bytes i))] } := by
  unfold bip_child_finish
  rw [bip_child_loop_step, if_neg (by intro h; rcases h with h | h; exact hIL h; exact hk h)]
  simp

/-! ## Lemmas on the response buffer -/

theorem map_getD_range (src : List Nat) :
    (List.range src.length).map (fun j => src.getD j 0) = src := by
  apply List.ext_getElem
  · simp
  · intro n h1 h2
    simp [List.getD_eq_getElem?_getD, List.getElem?_eq_getElem h2]

/-- Reading back a store: the bytes below the offset are kept, then come the stored bytes. -/
theorem load_store (mem : Nat → Nat) (off : Nat) (src : List Nat) (n : Nat)
    (hn : n = off + src.length) :
    load (store mem off src) n = load mem off ++ src := by
  subst hn
  unfold load
  rw [List.range_add, List.map_append, List.map_map]
  congr 1
  · apply List.map_congr_left
    intro k hk
    have : k < off := List.mem_range.mp hk
    simp [store]
    omega
  · conv_rhs => rw [← map_getD_range src]
    apply List.map_congr_left
    intro k hk
    have : k < src.length := List.mem_range.mp hk
    simp [store, this]

/-- A store at or above `n` leaves the first `n` bytes as they were. -/
theorem load_store_above (mem : Nat → Nat) (off : Nat) (src : List Nat) (n : Nat)
    (hn : n ≤ off) : load (store mem off src) n = load mem n := by
  unfold load
  apply List.map_congr_left
  intro k hk
  have : k < n := List.mem_range.mp hk
  simp [store]
  omega

/-- The first 9 bytes of the response that `encode_response` builds in an empty response
buffer: the version bytes, the depth byte and the fingerprint. -/
theorem encode_response_head (E : Env) (path : List Nat) (pos : Nat)
    (ctx : mbedtls_ecp_keypair) (chain fgpt : List Nat) (s : State)
    (hs : s.res_APDU_size = 0) (hf : fgpt.length = 4) :
    load (encode_response E path pos ctx chain fgpt s).res_APDU 9 =
      [0x04, 0x88, 0xB2, 0x1E] ++ [(pos + 255) % 256] ++ fgpt := by
  have hf4 : fgpt.take 4 = fgpt := by rw [← hf]; exact List.take_length fgpt
  unfold encode_response
  simp only [hs, hf4, Nat.zero_add]
  rw [load_store_above _ _ _ 9 (by omega), load_store_above _ _ _ 9 (by omega)]
  have hmid : ∀ m : Nat → Nat,
      load (if 1 < pos then store m 9 (index_bytes (path.getD (pos - 1) 0))
            else store m 9 [0, 0, 0, 0]) 9 = load m 9 := by
    intro m
    split
    · rw [load_store_above _ _ _ 9 (Nat.le_refl _)]
    · rw [load_store_above _ _ _ 9 (Nat.le_refl _)]
  rw [hmid, load_store _ 5 _ 9 (by rw [hf]), load_store _ 4 _ 5 (by simp),
    load_store _ 0 _ 4 (by simp)]
  simp [load]

/-- The layout of the response that `encode_response` builds in an empty response buffer. -/
theorem encode_response_layout (E : Env) (path : List Nat) (pos : Nat)
    (ctx : mbedtls_ecp_keypair) (chain fgpt : List Nat) (s : State)
    (hs : s.res_APDU_size = 0) (hf : fgpt.length = 4) (hc : chain.length = 32)
    (hp : (E.ecp_point_write_binary ctx.grp ctx.Q).length = 33) :
    (encode_response E path pos ctx chain fgpt s).res_APDU_size = 78 ∧
    load (encode_response E path pos ctx chain fgpt s).res_APDU 78 =
      [0x04, 0x88, 0xB2, 0x1E] ++ [(pos + 255) % 256] ++ fgpt
        ++ (if 1 < pos then be_bytes (path.getD (pos - 1) 0) 4 else [0, 0, 0, 0])
        ++ chain ++ E.ecp_point_write_binary ctx.grp ctx.Q := by
  have hf4 : fgpt.take 4 = fgpt := by rw [← hf]; exact List.take_length fgpt
  have hc32 : chain.take 32 = chain := by rw [← hc]; exact List.take_length chain
  have hp33 : (E.ecp_point_write_binary ctx.grp ctx.Q).take 33
      = E.ecp_point_write_binary ctx.grp ctx.Q := by
    rw [← hp]; exact List.take_length _
  unfold encode_response
  simp only [hs, hf4, hc32, hp33, hp, Nat.zero_add]
  refine ⟨by norm_num, ?_⟩
  rw [load_store _ 45 _ 78 (by rw [hp]), load_store _ 13 _ 45 (by rw [hc])]
  have h4 : (if 1 < pos then be_bytes (path.getD (pos - 1) 0) 4 else [0, 0, 0, 0]).length = 4 := by
    split <;> simp [be_bytes_length]
  have hmid : ∀ m : Nat → Nat,
      load (if 1 < pos then store m 9 (index_bytes (path.getD (pos - 1) 0))
            else store m 9 [0, 0, 0, 0]) 13
        = load m 9 ++ (if 1 < pos then be_bytes (path.getD (pos - 1) 0) 4 else [0, 0, 0, 0]) := by
    intro m
    split
    · rw [load_store _ 9 _ 13 (by simp [index_bytes]), index_bytes_eq]
    · rw [load_store _ 9 _ 13 (by simp)]
  rw [hmid, load_store _ 5 _ 9 (by rw [hf]), load_store _ 4 _ 5 (by simp),
    load_store _ 0 _ 4 (by simp)]
  simp [load]

/-! ## Lemmas on `node_fingerprint`, `node_derive_bip_path` and the TLV loop -/

theorem node_fingerprint_length (E : Env) (ctx : mbedtls_ecp_keypair) :
    (node_fingerprint E ctx).length = 4 := by
  unfold node_fingerprint
  simp only [List.length_take]
  have h1 := memcpy_length_ge (uninit E 33) 0
    ((E.ecp_point_write_binary ctx.grp ctx.Q).take 33) (Nat.zero_le _)
  have h2 := memcpy_length_ge _ 0 (E.md_sha256 (memcpy (uninit E 33) 0
    ((E.ecp_point_write_binary ctx.grp ctx.Q).take 33))) (Nat.zero_le
      (memcpy (uninit E 33) 0 ((E.ecp_point_write_binary ctx.grp ctx.Q).take 33)).length)
  have h3 := memcpy_length_ge _ 0 (E.md_ripemd160 ((memcpy (memcpy (uninit E 33) 0
    ((E.ecp_point_write_binary ctx.grp ctx.Q).take 33)) 0 (E.md_sha256 (memcpy (uninit E 33) 0
    ((E.ecp_point_write_binary ctx.grp ctx.Q).take 33)))).take 32)) (Nat.zero_le
      (memcpy (memcpy (uninit E 33) 0 ((E.ecp_point_write_binary ctx.grp ctx.Q).take 33)) 0
        (E.md_sha256 (memcpy (uninit E 33) 0
          ((E.ecp_point_write_binary ctx.grp ctx.Q).take 33)))).length)
  rw [uninit_length] at h1
  omega

/-- The loop of `node_derive_bip_child` ends with the HMAC output of its last call. -/
theorem bip_child_loop_last (E : Env) (cpar : List Nat) (d N i : Nat) :
    ∀ (fuel : Nat) (data : List Nat) (calls : List Call) (k : Nat) (I data' : List Nat)
      (calls' : List Call),
      bip_child_loop E cpar d N i fuel data calls = some (k, I, data', calls') →
      ∃ din more, I = E.md_hmac_sha512 cpar din ∧
        calls' = calls ++ more ++ [Call.md_hmac cpar din] := by
  intro fuel
  induction fuel with
  | zero => intro data calls k I data' calls' h; simp [bip_child_loop] at h
  | succ n ih =>
    intro data calls k I data' calls' h
    rw [bip_child_loop_step] at h
    split at h
    · obtain ⟨din, more, hI, hc⟩ := ih _ _ _ _ _ _ h
      exact ⟨din, Call.md_hmac cpar (memcpy data 33 (index_bytes i)) :: more, hI, by simp [hc]⟩
    · simp only [Option.some.injEq, Prod.mk.injEq] at h
      obtain ⟨-, hI, -, hc⟩ := h
      exact ⟨_, [], hI.symm, by simp [← hc]⟩

/-- A result of `node_derive_bip_child` with `CCID_OK` comes from `bip_child_finish`. -/
theorem node_derive_bip_child_ok (E : Env) (fuel : Nat) (parent : mbedtls_ecp_keypair)
    (cpar : List Nat) (i : Nat) (child : mbedtls_ecp_keypair) (cchild : List Nat)
    (res : child_result)
    (h : node_derive_bip_child E fuel parent cpar i child cchild = some res)
    (hr : res.r = .CCID_OK) :
    ∃ data, bip_child_finish E fuel parent cpar i child data = some res := by
  unfold node_derive_bip_child at h
  simp only at h
  split at h
  · split at h
    · simp only [Option.some.injEq] at h
      subst h
      simp at hr
    · exact ⟨_, h⟩
  · exact ⟨_, h⟩

/-- With a 64-byte HMAC the child chain code has 32 bytes. -/
theorem node_derive_bip_child_chain_length (E : Env) (fuel : Nat)
    (parent : mbedtls_ecp_keypair) (cpar : List Nat) (i : Nat) (child : mbedtls_ecp_keypair)
    (cchild : List Nat) (res : child_result)
    (hH : ∀ key data, (E.md_hmac_sha512 key data).length = 64)
    (h : node_derive_bip_child E fuel parent cpar i child cchild = some res)
    (hr : res.r = .CCID_OK) : res.cchild.length = 32 := by
  obtain ⟨data, hf⟩ := node_derive_bip_child_ok E fuel parent cpar i child cchild res h hr
  obtain ⟨k, I, data', calls, hl, rfl⟩ := bip_child_finish_some E fuel parent cpar i child data res hf
  obtain ⟨din, more, hI, -⟩ := bip_child_loop_last E cpar parent.d parent.grp.N i fuel data [] k I
    data' calls hl
  simp [hI, hH]

/-- The loop of `node_derive_bip_path` keeps the sizes of the chain code and the fingerprint. -/
theorem bip_path_loop_lengths (E : Env) (fuel : Nat)
    (hH : ∀ key data, (E.md_hmac_sha512 key data).length = 64) :
    ∀ (rest : List Nat) (ctx : mbedtls_ecp_keypair) (chain fp : List Nat) (calls : List Call)
      (res : path_result),
      bip_path_loop E fuel rest ctx chain fp calls = some res → res.r = .CCID_OK →
      chain.length = 32 → fp.length = 4 →
      res.chain.length = 32 ∧ res.fingerprint.length = 4 := by
  intro rest
  induction rest with
  | nil =>
    intro ctx chain fp calls res h _ hc hf
    simp only [bip_path_loop, Option.some.injEq] at h
    subst h
    exact ⟨hc, hf⟩
  | cons i rest ih =>
    intro ctx chain fp calls res h hr hc hf
    simp only [bip_path_loop] at h
    split at h
    · simp at h
    · rename_i c hchild
      split at h
      · rename_i hne
        simp only [Option.some.injEq] at h
        subst h
        exact absurd hr hne
      · rename_i hok
        have hok' : c.r = .CCID_OK := by simpa using hok
        exact ih _ _ _ _ _ h hr
          (node_derive_bip_child_chain_length E fuel ctx chain i ctx chain c hH hchild hok')
          (node_fingerprint_length E ctx)

/-- A successful `node_derive_bip_path` leaves a 32-byte chain code and a 4-byte fingerprint. -/
theorem node_derive_bip_path_lengths (E : Env) (fuel : Nat) (files : Nat → Option (List Nat))
    (path : List Nat) (path_len : Nat) (chain fingerprint : List Nat) (res : path_result)
    (hH : ∀ key data, (E.md_hmac_sha512 key data).length = 64)
    (h : node_derive_bip_path E fuel files path path_len chain fingerprint = some res)
    (hr : res.r = .CCID_OK) :
    res.chain.length = 32 ∧ res.fingerprint.length = 4 := by
  unfold node_derive_bip_path at h
  simp only at h
  split at h
  · simp only [Option.some.injEq] at h
    subst h
    simp at hr
  · rename_i file_data _
    split at h
    · simp only [Option.some.injEq] at h
      subst h
      simp at hr
    · rename_i plain _
      split at h
      · refine bip_path_loop_lengths E fuel hH _ _ _ _ _ _ h hr ?_ (by simp)
        have h1 := memcpy_length_ge (uninit E 65) 0 (file_data.take 65) (Nat.zero_le _)
        rw [uninit_length] at h1
        have h2 := memcpy_length_ge (memcpy (uninit E 65) 0 (file_data.take 65)) 1 plain
          (by omega)
        simp only [List.length_take, List.length_drop]
        omega
      · simp only [Option.some.injEq] at h
        subst h
        simp at hr

/-- The TLV loop stores one element per step and never ends normally past the array. -/
theorem parse_path_parsed :
    ∀ (elems : List tlv) (path : List Nat) (pos : Nat) (path' : List Nat) (n : Nat),
      parse_path elems path pos = .parsed path' n → pos ≤ MAX_PATH_DEPTH →
      n = pos + elems.length ∧ n ≤ MAX_PATH_DEPTH ∧ path'.length = path.length := by
  intro elems
  induction elems with
  | nil =>
    intro path pos path' n h hp
    simp only [parse_path, parse_result.parsed.injEq] at h
    obtain ⟨rfl, rfl⟩ := h
    simp [hp]
  | cons e rest ih =>
    intro path pos path' n h hp
    simp only [parse_path] at h
    split at h
    · simp at h
    · split at h
      · simp at h
      · rename_i hlt
        have hp' : pos + 1 ≤ MAX_PATH_DEPTH := by omega
        split at h
        · obtain ⟨h1, h2, h3⟩ := ih _ _ _ _ h hp'
          refine ⟨by simp [h1]; omega, h2, by simpa using h3⟩
        · split at h
          · obtain ⟨h1, h2, h3⟩ := ih _ _ _ _ h hp'
            refine ⟨by simp [h1]; omega, h2, by simpa using h3⟩
          · obtain ⟨h1, h2, h3⟩ := ih _ _ _ _ h hp'
            refine ⟨by simp [h1]; omega, h2, h3⟩

/-- The loop of `node_derive_bip_path` over a list of indices followed by one more index: the
last step starts from the result of the loop over the list. -/
theorem bip_path_loop_snoc (E : Env) (fuel : Nat) (i : Nat) :
    ∀ (l : List Nat) (ctx : mbedtls_ecp_keypair) (chain fp : List Nat) (calls : List Call)
      (res : path_result),
      bip_path_loop E fuel (l ++ [i]) ctx chain fp calls = some res → res.r = .CCID_OK →
      ∃ q c, bip_path_loop E fuel l ctx chain fp calls = some q ∧ q.r = .CCID_OK ∧
        res.fingerprint = node_fingerprint E q.ctx ∧
        node_derive_bip_child E fuel q.ctx q.chain i q.ctx q.chain = some c ∧
        c.r = .CCID_OK ∧ res.ctx = c.child ∧ res.chain = c.cchild ∧
        res.calls = q.calls ++ c.calls := by
  intro l
  induction l with
  | nil =>
    intro ctx chain fp calls res h hr
    simp only [List.nil_append, bip_path_loop] at h
    split at h
    · simp at h
    · rename_i c hchild
      split at h
      · rename_i hne
        simp only [Option.some.injEq] at h
        subst h
        exact absurd hr hne
      · rename_i hok
        have hok' : c.r = .CCID_OK := by simpa using hok
        simp only [bip_path_loop, Option.some.injEq] at h
        subst h
        exact ⟨_, c, rfl, rfl, rfl, hchild, hok', rfl, rfl, rfl⟩
  | cons j l ih =>
    intro ctx chain fp calls res h hr
    simp only [List.cons_append, bip_path_loop] at h
    split at h
    · simp at h
    · rename_i c hchild
      split at h
      · rename_i hne
        simp only [Option.some.injEq] at h
        subst h
        exact absurd hr hne
      · rename_i hok
        obtain ⟨q, c', hq, hrest⟩ := ih _ _ _ _ _ h hr
        refine ⟨q, c', ?_, hrest⟩
        simp only [bip_path_loop, hchild]
        rw [if_neg hok]
        exact hq

/-- On four value bytes `path_word` is the big-endian integer, whatever the first byte. -/
theorem path_word_eq (td : List Nat) (hl : td.length = 4) (hb : ∀ b ∈ td, b < 256) :
    path_word td = mpi_read_binary td := by
  match td, hl with
  | [b0, b1, b2, b3], _ =>
    have h0 : b0 < 256 := hb b0 (by simp)
    have h1 : b1 < 256 := hb b1 (by simp)
    have h2 : b2 < 256 := hb b2 (by simp)
    have h3 : b3 < 256 := hb b3 (by simp)
    have e3 : 2 ^ 8 * b2 + b3 = 2 ^ 8 * b2 ||| b3 := Nat.mul_add_lt_is_or (by omega) b2
    have e2 : 2 ^ 16 * b1 + (2 ^ 8 * b2 + b3) = 2 ^ 16 * b1 ||| (2 ^ 8 * b2 + b3) :=
      Nat.mul_add_lt_is_or (by omega) b1
    have e1 : 2 ^ 24 * b0 + (2 ^ 16 * b1 + (2 ^ 8 * b2 + b3))
        = 2 ^ 24 * b0 ||| (2 ^ 16 * b1 + (2 ^ 8 * b2 + b3)) :=
      Nat.mul_add_lt_is_or (by omega) b0
    simp only [path_word, mpi_read_binary, List.getD_cons_zero, List.getD_cons_succ,
      List.foldl_cons, List.foldl_nil]
    rw [Nat.shiftLeft_eq, Nat.shiftLeft_eq, Nat.shiftLeft_eq, Nat.lor_assoc, Nat.lor_assoc,
      Nat.mul_comm b0, Nat.mul_comm b1, Nat.mul_comm b2, ← e3, ← e2, ← e1]
    omega

theorem take_succ_set (l : List Nat) (n a : Nat) (h : n < l.length) :
    (l.set n a).take (n + 1) = l.take n ++ [a] := by
  rw [List.set_eq_take_append_cons_drop, if_pos h]
  have hl : (l.take n).length = n := by simp; omega
  have : l.take n ++ a :: l.drop (n + 1) = (l.take n ++ [a]) ++ l.drop (n + 1) := by simp
  rw [this, List.take_left' (by simp [hl])]

/-- One step of the TLV loop on an element that is accepted, below the end of the array. -/
theorem parse_path_step (e : tlv) (rest : List tlv) (path : List Nat) (pos : Nat)
    (hgood : ¬ bad_element pos e) (hpos : pos < MAX_PATH_DEPTH) :
    parse_path (e :: rest) path pos =
      parse_path rest
        (path.set pos (if pos = 0 then e.tag_data.getD 0 0 else path_word e.tag_data))
        (pos + 1) := by
  unfold bad_element at hgood
  rw [parse_path, if_neg hgood, if_neg (by omega)]
  by_cases h0 : pos = 0
  · have hl : e.tag_len = 1 := by
      by_contra hne
      exact hgood (Or.inr (Or.inl ⟨h0, hne⟩))
    simp [h0, hl]
  · have hl : e.tag_len = 4 := by
      by_contra hne
      exact hgood (Or.inr (Or.inr ⟨h0, hne⟩))
    simp [h0, hl]

/-- The TLV loop on elements that are all accepted and fit in the array. -/
theorem parse_path_good :
    ∀ (elems : List tlv) (path : List Nat) (pos : Nat),
      path.length = MAX_PATH_DEPTH → pos + elems.length ≤ MAX_PATH_DEPTH →
      (∀ k (h : k < elems.length), ¬ bad_element (pos + k) (elems.get ⟨k, h⟩)) →
      (∀ e ∈ elems, e.tag_data.length = e.tag_len ∧ ∀ b ∈ e.tag_data, b < 256) →
      parse_path elems path pos =
        .parsed (path.take pos ++ spec_path pos elems ++ path.drop (pos + elems.length))
          (pos + elems.length) := by
  intro elems
  induction elems with
  | nil =>
    intro path pos _ _ _ _
    simp [parse_path, spec_path]
  | cons e rest ih =>
    intro path pos hlen hfit hgood hwf
    have hg0 : ¬ bad_element pos e := by
      have := hgood 0 (by simp)
      simpa using this
    have hpos : pos < MAX_PATH_DEPTH := by
      simp only [List.length_cons] at hfit
      omega
    rw [parse_path_step e rest path pos hg0 hpos]
    have hword : (if pos = 0 then e.tag_data.getD 0 0 else path_word e.tag_data)
        = (if pos = 0 then e.tag_data.getD 0 0 else mpi_read_binary e.tag_data) := by
      by_cases h0 : pos = 0
      · simp [h0]
      · have hl : e.tag_len = 4 := by
          by_contra hne
          exact hg0 (Or.inr (Or.inr ⟨h0, hne⟩))
        have hw := hwf e (by simp)
        simp only [h0, if_false]
        exact path_word_eq e.tag_data (by rw [hw.1, hl]) hw.2
    rw [hword]
    rw [ih _ (pos + 1) (by simpa using hlen) (by simp only [List.length_cons] at hfit; omega)
      (by
        intro k h
        have := hgood (k + 1) (by simpa using h)
        simpa [Nat.add_assoc, Nat.add_comm 1 k] using this)
      (by intro e' he'; exact hwf e' (by simp [he']))]
    rw [take_succ_set _ _ _ (by rw [hlen]; exact hpos),
      List.drop_set_of_lt _ _ (by omega)]
    simp [spec_path, Nat.add_assoc, Nat.add_comm 1 rest.length]

/-- The TLV loop on elements that fit in the array, one of which is rejected. -/
theorem parse_path_bad :
    ∀ (elems : List tlv) (path : List Nat) (pos : Nat),
      pos + elems.length ≤ MAX_PATH_DEPTH →
      (∃ k, ∃ h : k < elems.length, bad_element (pos + k) (elems.get ⟨k, h⟩)) →
      parse_path elems path pos = .wrong_data := by
  intro elems
  induction elems with
  | nil =>
    intro path pos _ hbad
    obtain ⟨k, h, -⟩ := hbad
    simp at h
  | cons e rest ih =>
    intro path pos hfit hbad
    by_cases hb0 : bad_element pos e
    · unfold bad_element at hb0
      rw [parse_path, if_pos hb0]
    · have hpos : pos < MAX_PATH_DEPTH := by
        simp only [List.length_cons] at hfit
        omega
      rw [parse_path_step e rest path pos hb0 hpos]
      apply ih _ _ (by simp only [List.length_cons] at hfit; omega)
      obtain ⟨k, h, hk⟩ := hbad
      cases k with
      | zero => exact absurd (by simpa using hk) hb0
      | succ k =>
        refine ⟨k, by simpa using h, ?_⟩
        simpa [Nat.add_assoc, Nat.add_comm 1 k] using hk

/-- The derive-path command returns `SW_WRONG_DATA` exactly when its TLV loop rejects an
element. -/
theorem cmd_bip_slip_wrong_data_iff (E : Env) (fuel : Nat) (apdu : apdu_t) (s : State)
    (hp1 : apdu.p1 = 0x3) (hnc : apdu.data ≠ []) :
    (∃ s', cmd_bip_slip E fuel apdu s = some (.returns .SW_WRONG_DATA s')) ↔
      parse_path (E.walk_tlv apdu.data) (List.replicate MAX_PATH_DEPTH 0) 0 = .wrong_data := by
  have hlen : ¬ apdu.data.length = 0 := by
    intro h
    exact hnc (List.length_eq_zero.mp h)
  unfold cmd_bip_slip
  rw [if_neg (by rw [hp1]; decide), if_pos hp1]
  unfold cmd_derive
  rw [if_neg hlen]
  constructor
  · rintro ⟨s', h⟩
    split at h
    · rename_i hparse; exact hparse
    · simp at h
    · split at h
      · simp at h
      · simp only at h
        split at h <;> simp at h
  · intro h
    rw [h]
    exact ⟨s, rfl⟩

/-- The TLV loop on accepted elements that do not all fit: it stores at index
`MAX_PATH_DEPTH`. -/
theorem parse_path_overflow :
    ∀ (elems : List tlv) (path : List Nat) (pos : Nat),
      pos ≤ MAX_PATH_DEPTH → MAX_PATH_DEPTH < pos + elems.length →
      (∀ k (h : k < elems.length), ¬ bad_element (pos + k) (elems.get ⟨k, h⟩)) →
      parse_path elems path pos = .out_of_bounds MAX_PATH_DEPTH := by
  intro elems
  induction elems with
  | nil =>
    intro path pos h1 h2 _
    simp at h2
    omega
  | cons e rest ih =>
    intro path pos h1 h2 hgood
    have hg0 : ¬ bad_element pos e := by
      have := hgood 0 (by simp)
      simpa using this
    by_cases hpos : pos < MAX_PATH_DEPTH
    · rw [parse_path_step e rest path pos hg0 hpos]
      apply ih _ _ (by omega) (by simp only [List.length_cons] at h2; omega)
      intro k h
      have := hgood (k + 1) (by simpa using h)
      simpa [Nat.add_assoc, Nat.add_comm 1 k] using this
    · have hp : pos = MAX_PATH_DEPTH := by omega
      unfold bad_element at hg0
      rw [parse_path, if_neg hg0, if_pos (by omega), hp]

/-- The loop of master generation, entered with a 64-byte seed buffer under a 64-byte HMAC:
it ends with the HMAC output of its last call in the buffer, and that output's `IL` is in
range. -/
theorem master_loop_exit (E : Env) (key_seed : List Nat) (N : Nat)
    (hH : ∀ key data, (E.md_hmac_sha512 key data).length = 64) :
    ∀ (fuel : Nat) (seed : List Nat) (seed_len : Nat) (calls : List Call) (seed' : List Nat)
      (calls' : List Call),
      seed.length = 64 →
      master_loop E key_seed N fuel seed seed_len calls = some (seed', calls') →
      ∃ din more, seed' = E.md_hmac_sha512 key_seed din ∧
        calls' = calls ++ more ++ [Call.md_hmac key_seed din] ∧
        0 < mpi_read_binary (seed'.take 32) ∧ mpi_read_binary (seed'.take 32) < N := by
  intro fuel
  induction fuel with
  | zero => intro seed seed_len calls seed' calls' _ h; simp [master_loop] at h
  | succ n ih =>
    intro seed seed_len calls seed' calls' hlen h
    have hcopy : memcpy seed 0 (E.md_hmac_sha512 key_seed (seed.take seed_len))
        = E.md_hmac_sha512 key_seed (seed.take seed_len) := by
      rw [memcpy_zero, hH, List.drop_of_length_le (by omega)]
      simp
    simp only [master_loop, hcopy] at h
    split at h
    · obtain ⟨din, more, h1, h2, h3⟩ := ih _ _ _ _ _ (hH _ _) h
      exact ⟨din, Call.md_hmac key_seed (seed.take seed_len) :: more, h1, by simp [h2], h3⟩
    · rename_i hc
      simp only [Option.some.injEq, Prod.mk.injEq] at h
      obtain ⟨rfl, rfl⟩ := h
      refine ⟨_, [], rfl, by simp, ?_, ?_⟩
      · exact Nat.pos_of_ne_zero (fun h0 => hc (Or.inl h0))
      · by_contra hlt
        exact hc (Or.inr hlt)

/-- One iteration of the loop of master generation. -/
theorem master_loop_step (E : Env) (key_seed : List Nat) (N fuel : Nat) (seed : List Nat)
    (seed_len : Nat) (calls : List Call) :
    master_loop E key_seed N (fuel + 1) seed seed_len calls =
      if mpi_read_binary
            ((memcpy seed 0 (E.md_hmac_sha512 key_seed (seed.take seed_len))).take 32) = 0 ∨
          ¬ mpi_read_binary
            ((memcpy seed 0 (E.md_hmac_sha512 key_seed (seed.take seed_len))).take 32) < N then
        master_loop E key_seed N fuel
          (memcpy seed 0 (E.md_hmac_sha512 key_seed (seed.take seed_len))) 64
          (calls ++ [Call.md_hmac key_seed (seed.take seed_len)])
      else
        some (memcpy seed 0 (E.md_hmac_sha512 key_seed (seed.take seed_len)),
              calls ++ [Call.md_hmac key_seed (seed.take seed_len)]) := by
  rfl

/-- A normal index whose first HMAC output passes both tests of the loop: the function returns
`CCID_OK` after that one HMAC call over the compressed parent public key and the index. -/
theorem node_derive_bip_child_normal_first (E : Env) (fuel : Nat)
    (parent : mbedtls_ecp_keypair) (cpar : List Nat) (i : Nat) (child : mbedtls_ecp_keypair)
    (cchild : List Nat) (hi : i < 0x80000000)
    (hQ : (E.ecp_point_write_binary parent.grp parent.Q).length = 33)
    (hIL : mpi_read_binary ((E.md_hmac_sha512 cpar
      (E.ecp_point_write_binary parent.grp parent.Q ++ be_bytes i 4)).take 32) ≠ 0)
    (hk : (mpi_read_binary ((E.md_hmac_sha512 cpar
      (E.ecp_point_write_binary parent.grp parent.Q ++ be_bytes i 4)).take 32) + parent.d)
        % parent.grp.N ≠ 0) :
    ∃ res, node_derive_bip_child E (fuel + 1) parent cpar i child cchild = some res ∧
      res.r = .CCID_OK ∧
      res.calls = [Call.md_hmac cpar
        (E.ecp_point_write_binary parent.grp parent.Q ++ be_bytes i 4)] := by
  have hdata := data_normal E (E.ecp_point_write_binary parent.grp parent.Q) i hQ
  rw [← hdata] at hIL hk ⊢
  unfold node_derive_bip_child
  simp only [Nat.not_le.mpr hi, if_false]
  rw [bip_child_finish_first E fuel parent cpar i child _ hIL hk]
  exact ⟨_, rfl, rfl, rfl⟩

/-- The TLV loop returns `SW_WRONG_DATA` when an element among those that the array can take,
or the one right after them, is rejected. -/
theorem parse_path_bad_early :
    ∀ (elems : List tlv) (path : List Nat) (pos : Nat),
      (∃ k, ∃ h : k < elems.length,
        pos + k ≤ MAX_PATH_DEPTH ∧ bad_element (pos + k) (elems.get ⟨k, h⟩)) →
      parse_path elems path pos = .wrong_data := by
  intro elems
  induction elems with
  | nil =>
    intro path pos hbad
    obtain ⟨k, h, -⟩ := hbad
    simp at h
  | cons e rest ih =>
    intro path pos hbad
    by_cases hb0 : bad_element pos e
    · unfold bad_element at hb0
      rw [parse_path, if_pos hb0]
    · obtain ⟨k, h, hk16, hk⟩ := hbad
      cases k with
      | zero => exact absurd (by simpa using hk) hb0
      | succ k =>
        have hpos : pos < MAX_PATH_DEPTH := by omega
        rw [parse_path_step e rest path pos hb0 hpos]
        apply ih
        refine ⟨k, by simpa using h, by omega, ?_⟩
        simpa [Nat.add_assoc, Nat.add_comm 1 k] using hk

/-- With an HMAC whose `IL` is always 0 the loop of master generation is still running when
the fuel runs out, whatever the fuel. -/
theorem master_loop_none (E : Env) (key_seed : List Nat) (N : Nat)
    (hH : ∀ key data, (E.md_hmac_sha512 key data).length = 64)
    (hz : ∀ key data, mpi_read_binary ((E.md_hmac_sha512 key data).take 32) = 0) :
    ∀ (fuel : Nat) (seed : List Nat) (seed_len : Nat) (calls : List Call),
      seed.length = 64 → master_loop E key_seed N fuel seed seed_len calls = none := by
  intro fuel
  induction fuel with
  | zero => intro seed seed_len calls _; rfl
  | succ n ih =>
    intro seed seed_len calls hlen
    have hcopy : memcpy seed 0 (E.md_hmac_sha512 key_seed (seed.take seed_len))
        = E.md_hmac_sha512 key_seed (seed.take seed_len) := by
      rw [memcpy_zero, hH, List.drop_of_length_le (by omega)]
      simp
    rw [master_loop_step, hcopy, if_pos (Or.inl (hz _ _))]
    exact ih _ _ _ (hH _ _)

/-- With an HMAC whose `IL` is always 0 the loop of `node_derive_bip_child` is still running
when the fuel runs out, whatever the fuel. -/
theorem bip_child_loop_none (E : Env) (cpar : List Nat) (d N i : Nat)
    (hz : ∀ key data, mpi_read_binary ((E.md_hmac_sha512 key data).take 32) = 0) :
    ∀ (fuel : Nat) (data : List Nat) (calls : List Call),
      bip_child_loop E cpar d N i fuel data calls = none := by
  intro fuel
  induction fuel with
  | zero => intro data calls; rfl
  | succ n ih =>
    intro data calls
    rw [bip_child_loop_step, if_pos (Or.inl (hz _ _))]
    exact ih _ _

/-- With an HMAC whose `IL` is always 0, master generation for a valid slot never returns. -/
theorem cmd_generate_none (E : Env)
    (hH : ∀ key data, (E.md_hmac_sha512 key data).length = 64)
    (hz : ∀ key data, mpi_read_binary ((E.md_hmac_sha512 key data).take 32) = 0)
    (fuel : Nat) (apdu : apdu_t) (s : State)
    (hp1 : apdu.p1 = 0x1 ∨ apdu.p1 = 0x2) (hp2 : apdu.p2 < 10) :
    cmd_bip_slip E fuel apdu s = none := by
  have hlen : (if apdu.data.length = 0 then
        memcpy ((uninit E 65).drop 1) 0 ((E.random_gen 64).take 64)
      else memcpy ((uninit E 65).drop 1) 0
        (apdu.data.take (if apdu.data.length = 0 then 64 else min apdu.data.length 64))).length
      = 64 := by
    split
    · rw [memcpy_zero]
      simp only [List.length_append, List.length_take, List.length_drop, uninit_length]
      omega
    · rw [memcpy_zero]
      simp only [List.length_append, List.length_take, List.length_drop, uninit_length]
      omega
  unfold cmd_bip_slip
  rw [if_pos hp1]
  unfold cmd_generate
  rw [if_neg (by omega)]
  simp only
  rw [master_loop_none E _ _ hH hz fuel _ _ _ hlen]

/-- With an HMAC whose `IL` is always 0, `node_derive_bip_child` never returns, unless it
refuses a hardened index for a zero parent scalar. -/
theorem node_derive_bip_child_none (E : Env)
    (hz : ∀ key data, mpi_read_binary ((E.md_hmac_sha512 key data).take 32) = 0)
    (fuel : Nat) (parent : mbedtls_ecp_keypair) (cpar : List Nat) (i : Nat)
    (child : mbedtls_ecp_keypair) (cchild : List Nat)
    (hd : 0x80000000 ≤ i → parent.d ≠ 0) :
    node_derive_bip_child E fuel parent cpar i child cchild = none := by
  unfold node_derive_bip_child
  by_cases hi : 0x80000000 ≤ i
  · simp only [hi, if_true, hd hi, if_false]
    unfold bip_child_finish
    rw [bip_child_loop_none E cpar _ _ i hz]
  · simp only [hi, if_false]
    unfold bip_child_finish
    rw [bip_child_loop_none E cpar _ _ i hz]

/-- The HMAC `hmac_zero` has 64-byte outputs whose `IL` is 0. -/
theorem hmac_zero_spec :
    (∀ key data, ((demo_env hmac_zero).md_hmac_sha512 key data).length = 64) ∧
    (∀ key data, mpi_read_binary (((demo_env hmac_zero).md_hmac_sha512 key data).take 32) = 0) := by
  constructor
  · intro key data
    simp [demo_env, hmac_zero]
  · intro key data
    show mpi_read_binary ((List.replicate 64 0).take 32) = 0
    decide

theorem memcpy_length_eq (dst : List Nat) (off : Nat) (src : List Nat)
    (h : off + src.length ≤ dst.length) : (memcpy dst off src).length = dst.length := by
  simp [memcpy]
  omega

/-- The 37-byte buffer `data` after its three stores: one byte, 32 bytes, the index. -/
theorem data_layout (buf : List Nat) (b : Nat) (src : List Nat) (i : Nat)
    (hbuf : buf.length = 37) (hsrc : src.length = 32) :
    memcpy (memcpy (memcpy buf 0 [b]) 1 src) 33 (index_bytes i) = b :: src ++ be_bytes i 4 := by
  have h1 : memcpy buf 0 [b] = [b] ++ buf.drop 1 := by
    rw [memcpy_zero]; rfl
  have h2 : memcpy ([b] ++ buf.drop 1) 1 src = ([b] ++ src) ++ buf.drop 33 := by
    have := memcpy_append_left [b] (buf.drop 1) src
    simpa [hsrc] using this
  have h3 : memcpy (([b] ++ src) ++ buf.drop 33) 33 (index_bytes i)
      = ([b] ++ src) ++ index_bytes i ++ (buf.drop 33).drop 4 := by
    have := memcpy_append_left ([b] ++ src) (buf.drop 33) (index_bytes i)
    simpa [hsrc, index_bytes] using this
  have h4 : (buf.drop 33).drop 4 = [] := by
    simp [hbuf]
  rw [h1, h2, h3, h4, index_bytes_eq]
  simp

/-- The HMAC inputs of the loop of `node_derive_bip_child`, entered with a 37-byte buffer under
a 64-byte HMAC: each input after the first is `0x01`, the `IR` of the rejected output before
it, and the index; the loop ends with the output for the last input. -/
theorem bip_child_loop_chain (E : Env) (cpar : List Nat) (d N i : Nat)
    (hH : ∀ key data, (E.md_hmac_sha512 key data).length = 64) :
    ∀ (fuel : Nat) (data : List Nat) (calls : List Call) (k : Nat) (I data' : List Nat)
      (calls' : List Call),
      data.length = 37 →
      bip_child_loop E cpar d N i fuel data calls = some (k, I, data', calls') →
      ∃ (inputs : List (List Nat)) (last : List Nat),
        (inputs ++ [last]).head? = some (memcpy data 33 (index_bytes i)) ∧
        calls' = calls ++ (inputs ++ [last]).map (Call.md_hmac cpar) ∧
        List.Chain' (child_retry E cpar d N i) (inputs ++ [last]) ∧
        I = E.md_hmac_sha512 cpar last := by
  intro fuel
  induction fuel with
  | zero => intro data calls k I data' calls' _ h; simp [bip_child_loop] at h
  | succ n ih =>
    intro data calls k I data' calls' hlen h
    have hd1 : (memcpy data 33 (index_bytes i)).length = 37 := by
      rw [memcpy_length_eq _ _ _ (by simp [index_bytes, hlen]), hlen]
    have hIR : (((E.md_hmac_sha512 cpar (memcpy data 33 (index_bytes i))).drop 32).take 32).length
        = 32 := by
      simp [hH]
    rw [bip_child_loop_step] at h
    split at h
    · rename_i hrej
      have hnext : (memcpy (memcpy (memcpy data 33 (index_bytes i)) 0 [0x01]) 1
          (((E.md_hmac_sha512 cpar (memcpy data 33 (index_bytes i))).drop 32).take 32)).length
          = 37 := by
        rw [memcpy_length_eq, memcpy_length_eq, hd1]
        · simp [hd1]
        · rw [memcpy_length_eq _ _ _ (by simp [hd1]), hd1, hIR]; omega
      obtain ⟨inputs, last, hhead, hcalls, hchain, hI⟩ := ih _ _ _ _ _ _ hnext h
      rw [data_layout _ _ _ i hd1 hIR] at hhead
      refine ⟨memcpy data 33 (index_bytes i) :: inputs, last, rfl, by simp [hcalls], ?_, hI⟩
      rw [List.cons_append, List.chain'_cons']
      refine ⟨?_, hchain⟩
      intro y hy
      rw [hhead] at hy
      have hy' : 0x01 :: ((E.md_hmac_sha512 cpar (memcpy data 33 (index_bytes i))).drop 32).take 32
          ++ be_bytes i 4 = y := by simpa using hy
      refine ⟨hrej, hy'.symm, ?_⟩
      rw [← hy']
      simp [hIR, be_bytes_length]
    · simp only [Option.some.injEq, Prod.mk.injEq] at h
      obtain ⟨-, hI, -, hc⟩ := h
      exact ⟨[], memcpy data 33 (index_bytes i), rfl, by simp [← hc], List.chain'_singleton _,
        hI.symm⟩

/-- The 37-byte buffer `data` on entry to the loop of `node_derive_bip_child`. -/
theorem node_derive_bip_child_data (E : Env) (fuel : Nat) (parent : mbedtls_ecp_keypair)
    (cpar : List Nat) (i : Nat) (child : mbedtls_ecp_keypair) (cchild : List Nat)
    (res : child_result)
    (h : node_derive_bip_child E fuel parent cpar i child cchild = some res)
    (hr : res.r = .CCID_OK) :
    ∃ data, data.length = 37 ∧ bip_child_finish E fuel parent cpar i child data = some res := by
  unfold node_derive_bip_child at h
  simp only at h
  split at h
  · split at h
    · simp only [Option.some.injEq] at h
      subst h
      simp at hr
    · refine ⟨_, ?_, h⟩
      have h1 : (memcpy (uninit E 37) 0 [0x00]).length = 37 := by
        rw [memcpy_length_eq _ _ _ (by simp [uninit_length]), uninit_length]
      split
      · rename_i bs hbs
        have hbl : bs.length = 32 := by
          unfold mpi_write_binary at hbs
          split at hbs
          · simp only [Option.some.injEq] at hbs
            rw [← hbs, be_bytes_length]
          · simp at hbs
        rw [memcpy_length_eq _ _ _ (by rw [h1, hbl]; omega), h1]
      · exact h1
  · refine ⟨_, ?_, h⟩
    rw [memcpy_length_eq _ _ _ (by simp [uninit_length]), uninit_length]

/-- From a non-zero parent scalar `node_derive_bip_child` returns no error, and the child
scalar it stores is non-zero, and reduced when the parent curve order is positive. -/
theorem node_derive_bip_child_nonzero (E : Env) (fuel : Nat) (parent : mbedtls_ecp_keypair)
    (cpar : List Nat) (i : Nat) (child : mbedtls_ecp_keypair) (cchild : List Nat)
    (res : child_result) (hd : parent.d ≠ 0)
    (h : node_derive_bip_child E fuel parent cpar i child cchild = some res) :
    res.r = .CCID_OK ∧ res.child.d ≠ 0 ∧ res.child.grp = child.grp ∧
      (0 < parent.grp.N → res.child.d < parent.grp.N) := by
  have hfin : ∀ data, bip_child_finish E fuel parent cpar i child data = some res →
      res.r = .CCID_OK ∧ res.child.d ≠ 0 ∧ res.child.grp = child.grp ∧
        (0 < parent.grp.N → res.child.d < parent.grp.N) := by
    intro data hf
    obtain ⟨k, I, data', calls, hl, rfl⟩ :=
      bip_child_finish_some E fuel parent cpar i child data res hf
    obtain ⟨hk0, hk, -⟩ := bip_child_loop_exit E cpar parent.d parent.grp.N i fuel data [] k I
      data' calls hl
    refine ⟨rfl, hk0, rfl, ?_⟩
    intro hN
    show k < parent.grp.N
    rw [hk]
    exact Nat.mod_lt _ hN
  unfold node_derive_bip_child at h
  simp only at h
  split at h
  · exact hfin _ h
  · exact hfin _ h

/-- From a non-zero scalar the loop of `node_derive_bip_path` returns no error; the scalar it
ends with is non-zero, and positive and reduced after at least one step on a curve of positive
order. -/
theorem bip_path_loop_nonzero (E : Env) (fuel : Nat) :
    ∀ (rest : List Nat) (ctx : mbedtls_ecp_keypair) (chain fp : List Nat) (calls : List Call)
      (res : path_result),
      ctx.d ≠ 0 → bip_path_loop E fuel rest ctx chain fp calls = some res →
      res.r = .CCID_OK ∧ res.ctx.d ≠ 0 ∧ res.ctx.grp = ctx.grp ∧
        (rest ≠ [] → 0 < ctx.grp.N → res.ctx.d < ctx.grp.N) := by
  intro rest
  induction rest with
  | nil =>
    intro ctx chain fp calls res hd h
    simp only [bip_path_loop, Option.some.injEq] at h
    subst h
    exact ⟨rfl, hd, rfl, fun hne => absurd rfl hne⟩
  | cons i rest ih =>
    intro ctx chain fp calls res hd h
    simp only [bip_path_loop] at h
    split at h
    · simp at h
    · rename_i c hchild
      obtain ⟨hc1, hc2, hc3, hc4⟩ :=
        node_derive_bip_child_nonzero E fuel ctx chain i ctx chain c hd hchild
      rw [if_neg (by simp [hc1])] at h
      obtain ⟨h1, h2, h3, h4⟩ := ih _ _ _ _ _ hc2 h
      refine ⟨h1, h2, by rw [h3, hc3], ?_⟩
      intro _ hN
      by_cases hrest : rest = []
      · subst hrest
        simp only [bip_path_loop, Option.some.injEq] at h
        subst h
        exact hc4 hN
      · have := h4 hrest (by rw [hc3]; exact hN)
        rw [hc3] at this
        exact this

/-! ## Claims -/

/-- C1: whenever `node_derive_bip_child` returns `CCID_OK` for a parent whose curve order `N` is
positive, the child scalar `d'` it stores satisfies `0 < d' < N`. -/
theorem node_derive_bip_child_scalar_range (E : Env) (fuel : Nat)
    (parent : mbedtls_ecp_keypair) (cpar : List Nat) (i : Nat) (child : mbedtls_ecp_keypair)
    (cchild : List Nat) (res : child_result) (hN : 0 < parent.grp.N)
    (h : node_derive_bip_child E fuel parent cpar i child cchild = some res)
    (hr : res.r = .CCID_OK) :
    0 < res.child.d ∧ res.child.d < parent.grp.N := by
  unfold node_derive_bip_child at h
  simp only at h
  split at h
  · split at h
    · simp only [Option.some.injEq] at h
      subst h
      simp at hr
    · exact bip_child_finish_range E fuel parent cpar i child _ res hN h
  · exact bip_child_finish_range E fuel parent cpar i child _ res hN h

/-- C1 at the hardened child 0x80000001 of `demo_parent`, with one rejected iteration. -/
theorem node_derive_bip_child_scalar_range_witness :
    0 < demo_parent.grp.N ∧
    node_derive_bip_child (demo_env hmac_retry_once) 2 demo_parent (List.replicate 32 1)
      0x80000001 demo_parent (List.replicate 32 1) = some demo_child ∧
    demo_child.r = .CCID_OK ∧
    (0 < demo_child.child.d ∧ demo_child.child.d < demo_parent.grp.N) :=
  ⟨by decide, by decide, by decide,
   node_derive_bip_child_scalar_range (demo_env hmac_retry_once) 2 demo_parent
     (List.replicate 32 1) 0x80000001 demo_parent (List.replicate 32 1) demo_child
     (by decide) (by decide) (by decide)⟩

/-- C2 (the code at the failing input): on secp256r1, with parent scalar 1 and an HMAC output
whose `IL` is `2 ^ 256 - 1`, which is not below the curve order, `node_derive_bip_child` accepts
the first iteration: it returns `CCID_OK` after a single HMAC call with child scalar
`2 ^ 256 - N`.  Conversely an iteration with `IL = 0` and candidate 1 is rejected: under
`hmac_retry_once` the same derivation makes two HMAC calls. -/
theorem node_derive_bip_child_accepts_IL_ge_order :
    demo_parent.grp.N ≤ mpi_read_binary ((hmac_all_ones [] []).take 32) ∧
    (node_derive_bip_child (demo_env hmac_all_ones) 1 demo_parent (List.replicate 32 1) 7
        demo_parent (List.replicate 32 1)).map (fun res => (res.r, res.child.d, res.calls.length))
      = some (.CCID_OK, 2 ^ 256 - secp256r1_N, 1) ∧
    mpi_read_binary ((hmac_retry_once [] [0]).take 32) < demo_parent.grp.N ∧
    (mpi_read_binary ((hmac_retry_once [] [0]).take 32) + demo_parent.d) % demo_parent.grp.N ≠ 0 ∧
    (node_derive_bip_child (demo_env hmac_retry_once) 2 demo_parent (List.replicate 32 1) 7
        demo_parent (List.replicate 32 1)).map (fun res => (res.r, res.calls.length))
      = some (.CCID_OK, 2) := by
  refine ⟨by decide, by decide, by decide, by decide, by decide⟩

/-- C3: let `I` be the HMAC-SHA512 under the parent chain code of the first-round input
(`0x00`, the parent scalar as 32 big-endian bytes, the index as 4 big-endian bytes for a hardened
index and a non-zero parent scalar below `2 ^ 256`; the 33-byte compressed parent public key and
the index as 4 big-endian bytes otherwise).  If `0 < IL < N` and `(IL + d) mod N` is not 0, then
for every positive fuel `node_derive_bip_child` returns `CCID_OK` after that single HMAC call,
with child scalar `(IL + d) mod N`, child chain code `I[32:64]` and child public point the
product of the child scalar and the generator of the group of the key pair that receives the
child (the parent group when that group is the parent one, as at the only call site). -/
theorem node_derive_bip_child_first_round (E : Env) (fuel : Nat)
    (parent : mbedtls_ecp_keypair) (cpar : List Nat) (i : Nat) (child : mbedtls_ecp_keypair)
    (cchild : List Nat)
    (hd : 0x80000000 ≤ i → parent.d ≠ 0 ∧ parent.d < 2 ^ 256)
    (hQ : i < 0x80000000 → (E.ecp_point_write_binary parent.grp parent.Q).length = 33)
    (hIL : 0 < mpi_read_binary ((E.md_hmac_sha512 cpar (spec_child_data E parent i)).take 32) ∧
      mpi_read_binary ((E.md_hmac_sha512 cpar (spec_child_data E parent i)).take 32)
        < parent.grp.N)
    (hk : (mpi_read_binary ((E.md_hmac_sha512 cpar (spec_child_data E parent i)).take 32)
            + parent.d) % parent.grp.N ≠ 0) :
    node_derive_bip_child E (fuel + 1) parent cpar i child cchild =
      some { r := .CCID_OK
             child :=
               { grp := child.grp
                 d := (mpi_read_binary
                         ((E.md_hmac_sha512 cpar (spec_child_data E parent i)).take 32)
                       + parent.d) % parent.grp.N
                 Q := E.ecp_mul child.grp
                   ((mpi_read_binary
                       ((E.md_hmac_sha512 cpar (spec_child_data E parent i)).take 32)
                     + parent.d) % parent.grp.N) child.grp.G }
             cchild := ((E.md_hmac_sha512 cpar (spec_child_data E parent i)).drop 32).take 32
             calls := [Call.md_hmac cpar (spec_child_data E parent i)] } ∧
    (child.grp = parent.grp →
      ∀ res, node_derive_bip_child E (fuel + 1) parent cpar i child cchild = some res →
        res.child.Q = E.ecp_mul parent.grp res.child.d parent.grp.G) := by
  have main : node_derive_bip_child E (fuel + 1) parent cpar i child cchild =
      some { r := .CCID_OK
             child :=
               { grp := child.grp
                 d := (mpi_read_binary
                         ((E.md_hmac_sha512 cpar (spec_child_data E parent i)).take 32)
                       + parent.d) % parent.grp.N
                 Q := E.ecp_mul child.grp
                   ((mpi_read_binary
                       ((E.md_hmac_sha512 cpar (spec_child_data E parent i)).take 32)
                     + parent.d) % parent.grp.N) child.grp.G }
             cchild := ((E.md_hmac_sha512 cpar (spec_child_data E parent i)).drop 32).take 32
             calls := [Call.md_hmac cpar (spec_child_data E parent i)] } := by
    unfold node_derive_bip_child
    by_cases hi : 0x80000000 ≤ i
    · obtain ⟨hd0, hd1⟩ := hd hi
      have hw : mpi_write_binary parent.d 32 = some (be_bytes parent.d 32) := by
        have e : (256 : Nat) ^ 32 = 2 ^ 256 := by norm_num
        unfold mpi_write_binary
        rw [if_pos (by rw [e]; exact hd1)]
      have hdata := data_hardened E parent.d i
      have hs : spec_child_data E parent i = 0x00 :: be_bytes parent.d 32 ++ be_bytes i 4 := by
        simp [spec_child_data, hi]
      rw [hs] at hIL hk ⊢
      rw [← hdata] at hIL hk ⊢
      simp only [hi, if_true, hd0, if_false, hw]
      exact bip_child_finish_first E fuel parent cpar i child _ (Nat.pos_iff_ne_zero.mp hIL.1) hk
    · have hlt : i < 0x80000000 := Nat.lt_of_not_le hi
      have hdata := data_normal E (E.ecp_point_write_binary parent.grp parent.Q) i (hQ hlt)
      have hs : spec_child_data E parent i
          = E.ecp_point_write_binary parent.grp parent.Q ++ be_bytes i 4 := by
        simp [spec_child_data, hi]
      rw [hs] at hIL hk ⊢
      rw [← hdata] at hIL hk ⊢
      simp only [hi, if_false]
      exact bip_child_finish_first E fuel parent cpar i child _ (Nat.pos_iff_ne_zero.mp hIL.1) hk
  refine ⟨main, ?_⟩
  intro hg res hres
  rw [main] at hres
  simp only [Option.some.injEq] at hres
  subst hres
  simp [hg]

/-- C3 at the path step of Scenario C: the hardened child 0x80000001 of `demo_parent` under an
HMAC with `IL = 1000`. -/
theorem node_derive_bip_child_first_round_witness :
    (0x80000000 ≤ 0x80000001 → demo_parent.d ≠ 0 ∧ demo_parent.d < 2 ^ 256) ∧
    node_derive_bip_child (demo_env hmac_small) 1 demo_parent (List.replicate 32 1) 0x80000001
        demo_parent (List.replicate 32 1) =
      some { r := .CCID_OK
             child := { grp := demo_parent.grp, d := 1001, Q := ⟨7007, 11011, 1⟩ }
             cchild := List.range 32
             calls := [Call.md_hmac (List.replicate 32 1)
                        (0x00 :: be_bytes 1 32 ++ [0x80, 0, 0, 1])] } :=
  ⟨by decide,
   by
    have h := (node_derive_bip_child_first_round (demo_env hmac_small) 0 demo_parent
      (List.replicate 32 1) 0x80000001 demo_parent (List.replicate 32 1) (by decide) (by decide)
      (by decide) (by decide)).1
    rw [h]
    decide⟩

/-- C4: for every derive-path command (`P1 = 3`) that returns `SW_OK` from an empty response
buffer, with a parsed path of `n >= 1` elements, under a 64-byte HMAC and when the serialiser
writes the 33 bytes of a compressed point for the returned key pair: the response is exactly
78 bytes, namely `04 88 B2 1E`, the depth `n - 1`, the 4-byte fingerprint returned by
`node_derive_bip_path`, the last path index as 4 big-endian bytes (`00 00 00 00` when `n = 1`),
the returned 32-byte chain code, and the 33-byte compressed public key of the returned key
pair. -/
theorem cmd_bip_slip_response_layout (E : Env) (fuel : Nat) (apdu : apdu_t) (s s' : State)
    (hH : ∀ key data, (E.md_hmac_sha512 key data).length = 64)
    (hp1 : apdu.p1 = 0x3) (hs : s.res_APDU_size = 0)
    (h : cmd_bip_slip E fuel apdu s = some (.returns .SW_OK s')) :
    ∃ path n p,
      parse_path (E.walk_tlv apdu.data) (List.replicate MAX_PATH_DEPTH 0) 0 = .parsed path n ∧
      node_derive_bip_path E fuel s.files path n (uninit E 32) (uninit E 4) = some p ∧
      p.r = .CCID_OK ∧ p.fingerprint.length = 4 ∧ p.chain.length = 32 ∧
      (1 ≤ n → (E.ecp_point_write_binary p.ctx.grp p.ctx.Q).length = 33 →
        s'.res_APDU_size = 78 ∧
        load s'.res_APDU 78 =
          [0x04, 0x88, 0xB2, 0x1E] ++ [n - 1] ++ p.fingerprint
            ++ (if 1 < n then be_bytes (path.getD (n - 1) 0) 4 else [0, 0, 0, 0])
            ++ p.chain ++ E.ecp_point_write_binary p.ctx.grp p.ctx.Q) := by
  unfold cmd_bip_slip at h
  rw [if_neg (by rw [hp1]; decide), if_pos hp1] at h
  unfold cmd_derive at h
  split at h
  · simp at h
  · split at h
    · simp at h
    · simp at h
    · rename_i path n hparse
      split at h
      · simp at h
      · rename_i p hpath
        simp only at h
        split at h
        · simp at h
        · rename_i hok
          have hok' : p.r = .CCID_OK := by simpa using hok
          simp only [Option.some.injEq, cmd_result.returns.injEq, true_and] at h
          obtain ⟨hc, hf⟩ := node_derive_bip_path_lengths E fuel s.files path n _ _ p hH hpath hok'
          refine ⟨path, n, p, hparse, hpath, hok', hf, hc, ?_⟩
          intro hn hP
          obtain ⟨-, hn16, -⟩ := parse_path_parsed _ _ _ _ _ hparse (Nat.zero_le _)
          have hdepth : (n + 255) % 256 = n - 1 := by
            unfold MAX_PATH_DEPTH at hn16
            omega
          have hl := encode_response_layout E path n p.ctx p.chain p.fingerprint
            { s with calls := s.calls ++ [Call.node_derive_bip_path path n] ++ p.calls }
            hs hf hc hP
          rw [← h]
          rw [hdepth] at hl
          exact hl

/-- C4 on Scenario C: the path `[0x00, 0x80000001]` on a master generated in slot 0. -/
theorem cmd_bip_slip_response_layout_witness :
    (∀ key data, ((demo_env hmac_small).md_hmac_sha512 key data).length = 64) ∧
    demo_master_state.res_APDU_size = 0 ∧
    cmd_bip_slip (demo_env hmac_small) 1 demo_derive_apdu { demo_master_state with calls := [] }
      = some (.returns .SW_OK demo_derive_state) ∧
    (∃ path n p,
      parse_path ((demo_env hmac_small).walk_tlv demo_derive_apdu.data)
        (List.replicate MAX_PATH_DEPTH 0) 0 = .parsed path n ∧
      node_derive_bip_path (demo_env hmac_small) 1 demo_master_state.files path n
        (uninit (demo_env hmac_small) 32) (uninit (demo_env hmac_small) 4) = some p ∧
      p.r = .CCID_OK ∧ p.fingerprint.length = 4 ∧ p.chain.length = 32 ∧
      (1 ≤ n → ((demo_env hmac_small).ecp_point_write_binary p.ctx.grp p.ctx.Q).length = 33 →
        demo_derive_state.res_APDU_size = 78 ∧
        load demo_derive_state.res_APDU 78 =
          [0x04, 0x88, 0xB2, 0x1E] ++ [n - 1] ++ p.fingerprint
            ++ (if 1 < n then be_bytes (path.getD (n - 1) 0) 4 else [0, 0, 0, 0])
            ++ p.chain ++ (demo_env hmac_small).ecp_point_write_binary p.ctx.grp p.ctx.Q)) ∧
    demo_derive_state.res_APDU_size = 78 ∧
    load demo_derive_state.res_APDU 78 =
      [0x04, 0x88, 0xB2, 0x1E, 0x01] ++ [1, 194, 131, 68] ++ [0x80, 0x00, 0x00, 0x01]
        ++ List.range 32 ++ (0x02 :: be_bytes 14000 32) :=
  ⟨by intro key data; simp [demo_env, hmac_small, be_bytes_length], by decide, rfl,
   cmd_bip_slip_response_layout (demo_env hmac_small) 1 demo_derive_apdu
     { demo_master_state with calls := [] } demo_derive_state
     (by intro key data; simp [demo_env, hmac_small, be_bytes_length]) rfl rfl rfl,
   by decide, by decide⟩

/-- C5 (counterexample): for the depth-0 path `[0x00]` on a valid master record,
`node_derive_bip_path` returns `CCID_OK` with the fingerprint `00 00 00 00`, while
`node_fingerprint` of the root key pair is `01 C2 83 44`. -/
theorem node_derive_bip_path_depth0_counterexample :
    (node_derive_bip_path (demo_env hmac_small) 0 demo_master_state.files [0x00] 1
        (uninit (demo_env hmac_small) 32) (uninit (demo_env hmac_small) 4)).map
      (fun p => (p.r, p.fingerprint, node_fingerprint (demo_env hmac_small) p.ctx))
      = some (.CCID_OK, [0, 0, 0, 0], [1, 194, 131, 68]) := by
  decide

/-- C5 (amended): for every stored 65-byte record `tag :: cipher` in the selected slot that the
KEK decrypts to 64 bytes `plain`, with `tag` 1 or 2, and every depth-0 path (path length 1),
`node_derive_bip_path` returns `CCID_OK` whatever the fuel, the reported parent fingerprint is
`00 00 00 00`, the key pair is the root one (scalar `plain[0:32]`, public point scalar times
generator) and the chain code is `plain[32:64]`; and a derive-path command whose TLV loop ends
with that path, run on these files from an empty response buffer, returns `SW_OK` with the
bytes 0..8 of the response equal to `04 88 B2 1E`, the depth `00` and the fingerprint
`00 00 00 00` in bytes 5..8. -/
theorem node_derive_bip_path_depth0 (E : Env) (fuel : Nat) (files : Nat → Option (List Nat))
    (path chain fp : List Nat) (tag : Nat) (cipher plain : List Nat)
    (hfile : files (E.EF_MASTER_SEED ||| path.getD 0 0) = some (tag :: cipher))
    (hlen : cipher.length = 64)
    (hdec : E.mkek_decrypt cipher = some plain) (hplain : plain.length = 64)
    (htag : tag = 0x1 ∨ tag = 0x2) :
    (∃ p, node_derive_bip_path E fuel files path 1 chain fp = some p ∧ p.r = .CCID_OK ∧
      p.fingerprint = [0, 0, 0, 0] ∧
      p.ctx.grp = E.ecp_group_load
        (if tag = 0x1 then .MBEDTLS_ECP_DP_SECP256K1 else .MBEDTLS_ECP_DP_SECP256R1) ∧
      p.ctx.d = mpi_read_binary (plain.take 32) ∧
      p.ctx.Q = E.ecp_mul p.ctx.grp p.ctx.d p.ctx.grp.G ∧
      p.chain = plain.drop 32) ∧
    (∀ (apdu : apdu_t) (s : State) (fuel' : Nat), apdu.p1 = 0x3 → apdu.data ≠ [] →
      s.files = files → s.res_APDU_size = 0 →
      parse_path (E.walk_tlv apdu.data) (List.replicate MAX_PATH_DEPTH 0) 0
        = .parsed path 1 →
      ∃ s', cmd_bip_slip E fuel' apdu s = some (.returns .SW_OK s') ∧
        load s'.res_APDU 9 = [0x04, 0x88, 0xB2, 0x1E, 0x00, 0, 0, 0, 0]) := by
  have main : ∀ (fuel : Nat) (chain fp : List Nat),
      ∃ p, node_derive_bip_path E fuel files path 1 chain fp = some p ∧ p.r = .CCID_OK ∧
        p.fingerprint = [0, 0, 0, 0] ∧
        p.ctx.grp = E.ecp_group_load
          (if tag = 0x1 then .MBEDTLS_ECP_DP_SECP256K1 else .MBEDTLS_ECP_DP_SECP256R1) ∧
        p.ctx.d = mpi_read_binary (plain.take 32) ∧
        p.ctx.Q = E.ecp_mul p.ctx.grp p.ctx.d p.ctx.grp.G ∧
        p.chain = plain.drop 32 := by
    intro fuel chain fp
    have hm1 : memcpy (uninit E 65) 0 ((tag :: cipher).take 65) = tag :: cipher := by
      have hl : (tag :: cipher).length = 65 := by simp [hlen]
      have ht : (tag :: cipher).take 65 = tag :: cipher := by
        rw [← hl]; exact List.take_length _
      rw [ht, memcpy_zero, hl]
      simp [uninit_length]
    have hm2 : memcpy (tag :: cipher) 1 plain = tag :: plain := by
      have hd : cipher.drop 64 = [] := List.drop_of_length_le (by omega)
      have := memcpy_append_left [tag] cipher plain
      simpa [hplain, hd] using this
    have hrest : (path.take 1).drop 1 = [] := by
      cases path <;> simp
    have hchain : (plain.drop 32).take 32 = plain.drop 32 := by
      apply List.take_of_length_le
      simp [hplain]
    unfold node_derive_bip_path
    simp only [hfile, hm1, List.drop_one, List.tail_cons, hdec, hm2, hrest, bip_path_loop]
    rcases htag with rfl | rfl
    · refine ⟨_, rfl, ?_⟩
      simp [hchain]
    · refine ⟨_, rfl, ?_⟩
      simp [hchain]
  refine ⟨main fuel chain fp, ?_⟩
  intro apdu s fuel' hp1 hnc hfiles hs hparse
  obtain ⟨p, hp, hr, hfp, -⟩ := main fuel' (uninit E 32) (uninit E 4)
  have hlen0 : ¬ apdu.data.length = 0 := by
    intro h
    exact hnc (List.length_eq_zero.mp h)
  rw [← hfiles] at hp
  unfold cmd_bip_slip
  rw [if_neg (by rw [hp1]; decide), if_pos hp1]
  unfold cmd_derive
  rw [if_neg hlen0, hparse]
  simp only [hp]
  rw [if_neg (by simp [hr])]
  refine ⟨_, rfl, ?_⟩
  have hhead := encode_response_head E path 1 p.ctx p.chain p.fingerprint
    { s with calls := s.calls ++ [Call.node_derive_bip_path path 1] ++ p.calls }
    hs (by rw [hfp]; rfl)
  rw [hhead, hfp]
  rfl

/-- C5 (amended) on the master of `demo_master_state`, slot 0, and the request
`demo_root_apdu` (Scenario B). -/
theorem node_derive_bip_path_depth0_witness :
    demo_master_state.files ((demo_env hmac_small).EF_MASTER_SEED ||| [0x00].getD 0 0)
      = some (0x2 :: (be_bytes 1000 32 ++ List.range 32).map (fun x => x ^^^ 1)) ∧
    ((∃ p, node_derive_bip_path (demo_env hmac_small) 0 demo_master_state.files [0x00] 1 [] []
        = some p ∧ p.r = .CCID_OK ∧ p.fingerprint = [0, 0, 0, 0] ∧
      p.ctx.grp = (demo_env hmac_small).ecp_group_load
        (if 0x2 = 0x1 then .MBEDTLS_ECP_DP_SECP256K1 else .MBEDTLS_ECP_DP_SECP256R1) ∧
      p.ctx.d = mpi_read_binary ((be_bytes 1000 32 ++ List.range 32).take 32) ∧
      p.ctx.Q = (demo_env hmac_small).ecp_mul p.ctx.grp p.ctx.d p.ctx.grp.G ∧
      p.chain = (be_bytes 1000 32 ++ List.range 32).drop 32) ∧
    (∀ (apdu : apdu_t) (s : State) (fuel' : Nat), apdu.p1 = 0x3 → apdu.data ≠ [] →
      s.files = demo_master_state.files → s.res_APDU_size = 0 →
      parse_path ((demo_env hmac_small).walk_tlv apdu.data) (List.replicate MAX_PATH_DEPTH 0) 0
        = .parsed [0x00] 1 →
      ∃ s', cmd_bip_slip (demo_env hmac_small) fuel' apdu s = some (.returns .SW_OK s') ∧
        load s'.res_APDU 9 = [0x04, 0x88, 0xB2, 0x1E, 0x00, 0, 0, 0, 0])) ∧
    returned_sw (cmd_bip_slip (demo_env hmac_small) 0 demo_root_apdu
      { demo_master_state with calls := [] }) = some .SW_OK ∧
    load (returned_state empty_state (cmd_bip_slip (demo_env hmac_small) 0 demo_root_apdu
        { demo_master_state with calls := [] })).res_APDU 13
      = [0x04, 0x88, 0xB2, 0x1E, 0x00, 0, 0, 0, 0, 0, 0, 0, 0] :=
  ⟨by decide,
   node_derive_bip_path_depth0 (demo_env hmac_small) 0 demo_master_state.files [0x00] [] [] 0x2
     ((be_bytes 1000 32 ++ List.range 32).map (fun x => x ^^^ 1))
     (be_bytes 1000 32 ++ List.range 32) (by decide) (by decide) (by decide) (by decide)
     (by decide),
   by decide, by decide⟩

/-- C6: if deriving the path `p` followed by the index `i` returns `CCID_OK` (`p` has at least
its selector; `tail`, `tail'` are the unused entries of the path arrays), then deriving `p`
returns `CCID_OK` with the same fuel, the parent fingerprint returned for `p` followed by `i` is
`node_fingerprint` of the key pair returned for `p`, and the key pair and chain code returned for
`p` followed by `i` are those of `node_derive_bip_child` applied to the result of `p` with
index `i`. -/
theorem node_derive_bip_path_chaining (E : Env) (fuel : Nat) (files : Nat → Option (List Nat))
    (p : List Nat) (i : Nat) (tail tail' chain fp : List Nat) (res : path_result)
    (hp : 1 ≤ p.length)
    (h : node_derive_bip_path E fuel files (p ++ i :: tail) (p.length + 1) chain fp = some res)
    (hr : res.r = .CCID_OK) :
    ∃ q c, node_derive_bip_path E fuel files (p ++ tail') p.length chain fp = some q ∧
      q.r = .CCID_OK ∧
      res.fingerprint = node_fingerprint E q.ctx ∧
      node_derive_bip_child E fuel q.ctx q.chain i q.ctx q.chain = some c ∧
      c.r = .CCID_OK ∧ res.ctx = c.child ∧ res.chain = c.cchild := by
  obtain ⟨sel, rest, rfl⟩ : ∃ sel rest, p = sel :: rest := by
    cases p with
    | nil => simp at hp
    | cons a l => exact ⟨a, l, rfl⟩
  have e1 : ((sel :: rest ++ i :: tail).take ((sel :: rest).length + 1)).drop 1 = rest ++ [i] := by
    have : (sel :: rest ++ i :: tail) = (sel :: rest ++ [i]) ++ tail := by simp
    rw [this, List.take_left' (by simp)]
    simp
  have e2 : ((sel :: rest ++ tail').take (sel :: rest).length).drop 1 = rest := by
    rw [List.take_left' rfl]
    simp
  unfold node_derive_bip_path at h ⊢
  simp only [e1, e2] at h ⊢
  simp only [List.cons_append, List.getD_cons_zero] at h ⊢
  split at h
  · simp only [Option.some.injEq] at h
    subst h
    simp at hr
  · rename_i file_data hfile
    split at h
    · simp only [Option.some.injEq] at h
      subst h
      simp at hr
    · rename_i plain hdec
      split at h
      · rename_i htag
        obtain ⟨q, c, hq, hq1, hq2, hq3, hq4, hq5, hq6, -⟩ :=
          bip_path_loop_snoc E fuel i _ _ _ _ _ _ h hr
        refine ⟨q, c, ?_, hq1, hq2, hq3, hq4, hq5, hq6⟩
        rw [if_pos htag]
        exact hq
      · simp only [Option.some.injEq] at h
        subst h
        simp at hr

/-- C6 on the path `[0x00]` followed by the index `0x80000001`, on `demo_master_state`. -/
theorem node_derive_bip_path_chaining_witness :
    1 ≤ [0x00].length ∧
    node_derive_bip_path (demo_env hmac_small) 1 demo_master_state.files
      ([0x00] ++ 0x80000001 :: []) ([0x00].length + 1) [] [] = some demo_path_result ∧
    demo_path_result.r = .CCID_OK ∧
    (∃ q c, node_derive_bip_path (demo_env hmac_small) 1 demo_master_state.files ([0x00] ++ [])
        [0x00].length [] [] = some q ∧
      q.r = .CCID_OK ∧
      demo_path_result.fingerprint = node_fingerprint (demo_env hmac_small) q.ctx ∧
      node_derive_bip_child (demo_env hmac_small) 1 q.ctx q.chain 0x80000001 q.ctx q.chain
        = some c ∧
      c.r = .CCID_OK ∧ demo_path_result.ctx = c.child ∧ demo_path_result.chain = c.cchild) ∧
    demo_path_result.fingerprint = [1, 194, 131, 68] :=
  ⟨by decide, by decide, by decide,
   node_derive_bip_path_chaining (demo_env hmac_small) 1 demo_master_state.files [0x00]
     0x80000001 [] [] [] [] demo_path_result (by decide) (by decide) (by decide),
   by decide⟩

/-- C7: for a derive-path command (`P1 = 3`, non-empty payload) whose walker delivers at most
`MAX_PATH_DEPTH` elements, each with `tag_len` value bytes below 256: the command returns
`SW_WRONG_DATA` if and only if some element has a tag other than `0x02`, or element 0 has a
length other than 1, or a later element has a length other than 4; otherwise the loop ends with
the path `[v0[0], BE32 (v1), ..., BE32 (vk)]` in the first entries of the array (the other
entries are 0), for all byte values. -/
theorem cmd_bip_slip_path_rules (E : Env) (fuel : Nat) (apdu : apdu_t) (s : State)
    (hp1 : apdu.p1 = 0x3) (hnc : apdu.data ≠ [])
    (hfit : (E.walk_tlv apdu.data).length ≤ MAX_PATH_DEPTH)
    (hwf : ∀ e ∈ E.walk_tlv apdu.data,
      e.tag_data.length = e.tag_len ∧ ∀ b ∈ e.tag_data, b < 256) :
    ((∃ s', cmd_bip_slip E fuel apdu s = some (.returns .SW_WRONG_DATA s')) ↔
      ∃ k, ∃ h : k < (E.walk_tlv apdu.data).length,
        bad_element k ((E.walk_tlv apdu.data).get ⟨k, h⟩)) ∧
    ((¬ ∃ k, ∃ h : k < (E.walk_tlv apdu.data).length,
        bad_element k ((E.walk_tlv apdu.data).get ⟨k, h⟩)) →
      parse_path (E.walk_tlv apdu.data) (List.replicate MAX_PATH_DEPTH 0) 0 =
        .parsed (spec_path 0 (E.walk_tlv apdu.data)
            ++ List.replicate (MAX_PATH_DEPTH - (E.walk_tlv apdu.data).length) 0)
          (E.walk_tlv apdu.data).length) := by
  have hgood : (¬ ∃ k, ∃ h : k < (E.walk_tlv apdu.data).length,
        bad_element k ((E.walk_tlv apdu.data).get ⟨k, h⟩)) →
      parse_path (E.walk_tlv apdu.data) (List.replicate MAX_PATH_DEPTH 0) 0 =
        .parsed (spec_path 0 (E.walk_tlv apdu.data)
            ++ List.replicate (MAX_PATH_DEPTH - (E.walk_tlv apdu.data).length) 0)
          (E.walk_tlv apdu.data).length := by
    intro hno
    have := parse_path_good (E.walk_tlv apdu.data) (List.replicate MAX_PATH_DEPTH 0) 0
      (by simp) (by simpa using hfit)
      (by
        intro k h hb
        exact hno ⟨k, h, by simpa using hb⟩)
      hwf
    simpa using this
  refine ⟨?_, hgood⟩
  rw [cmd_bip_slip_wrong_data_iff E fuel apdu s hp1 hnc]
  constructor
  · intro hw
    by_contra hno
    rw [hgood hno] at hw
    simp at hw
  · intro hbad
    apply parse_path_bad _ _ _ (by simpa using hfit)
    obtain ⟨k, h, hk⟩ := hbad
    exact ⟨k, h, by simpa using hk⟩

/-- C7 on a payload whose index has the first byte `0xFF`: the path is
`[0x07, 0xFF008001]`. -/
theorem cmd_bip_slip_path_rules_witness :
    demo_derive_apdu.p1 = 0x3 ∧ demo_payload_high ≠ [] ∧
    ((demo_env hmac_small).walk_tlv demo_payload_high).length ≤ MAX_PATH_DEPTH ∧
    (((∃ s', cmd_bip_slip (demo_env hmac_small) 1 { demo_derive_apdu with data := demo_payload_high }
          empty_state = some (.returns .SW_WRONG_DATA s')) ↔
        ∃ k, ∃ h : k < ((demo_env hmac_small).walk_tlv demo_payload_high).length,
          bad_element k (((demo_env hmac_small).walk_tlv demo_payload_high).get ⟨k, h⟩)) ∧
      ((¬ ∃ k, ∃ h : k < ((demo_env hmac_small).walk_tlv demo_payload_high).length,
          bad_element k (((demo_env hmac_small).walk_tlv demo_payload_high).get ⟨k, h⟩)) →
        parse_path ((demo_env hmac_small).walk_tlv demo_payload_high)
            (List.replicate MAX_PATH_DEPTH 0) 0 =
          .parsed (spec_path 0 ((demo_env hmac_small).walk_tlv demo_payload_high)
              ++ List.replicate
                (MAX_PATH_DEPTH - ((demo_env hmac_small).walk_tlv demo_payload_high).length) 0)
            ((demo_env hmac_small).walk_tlv demo_payload_high).length)) ∧
    parse_path ((demo_env hmac_small).walk_tlv demo_payload_high)
        (List.replicate MAX_PATH_DEPTH 0) 0 =
      .parsed ([0x07, 0xFF008001] ++ List.replicate 14 0) 2 :=
  ⟨by decide, by decide, by decide,
   cmd_bip_slip_path_rules (demo_env hmac_small) 1
     { demo_derive_apdu with data := demo_payload_high } empty_state (by decide) (by decide)
     (by decide) (by decide),
   by decide⟩

/-- C8 (the code at the failing input): for a payload of 17 well-formed elements the TLV loop
of the command accepts every element and stores the 17th at index 16, past the end of
`path[MAX_PATH_DEPTH]`; the command does not return `SW_WRONG_DATA`. -/
theorem cmd_bip_slip_path_overflow :
    ((demo_env hmac_small).walk_tlv demo_payload_17).length = 17 ∧
    (∀ k, ∀ h : k < ((demo_env hmac_small).walk_tlv demo_payload_17).length,
      ¬ bad_element k (((demo_env hmac_small).walk_tlv demo_payload_17).get ⟨k, h⟩)) ∧
    parse_path ((demo_env hmac_small).walk_tlv demo_payload_17)
      (List.replicate MAX_PATH_DEPTH 0) 0 = .out_of_bounds 16 ∧
    cmd_bip_slip (demo_env hmac_small) 1 { p1 := 0x3, p2 := 0, data := demo_payload_17 }
      demo_master_state = some (.out_of_bounds 16) ∧
    returned_sw (cmd_bip_slip (demo_env hmac_small) 1
      { p1 := 0x3, p2 := 0, data := demo_payload_17 } demo_master_state) ≠ some .SW_WRONG_DATA := by
  refine ⟨by decide, by decide, by decide, rfl, by decide⟩

/-- C10: for every seed payload, random generator, curve selector `P1` in {1, 2} and slot `P2`,
under a 64-byte HMAC: if generate-master returns `SW_OK` then `P2 < 10`, and there is a last HMAC
call, under the key seed of the curve, whose 64-byte output `I = IL || IR` satisfies
`0 < IL < N` for the order `N` of the selected curve, such that `I` is the buffer handed to the
KEK (the record being `P1 || IL || IR` at that point) and the record written to the file of slot
`P2` is `P1` followed by these 64 bytes as the KEK returned them. -/
theorem cmd_bip_slip_master_record (E : Env) (fuel : Nat) (apdu : apdu_t) (s s' : State)
    (hH : ∀ key data, (E.md_hmac_sha512 key data).length = 64)
    (hp1 : apdu.p1 = 0x1 ∨ apdu.p1 = 0x2)
    (h : cmd_bip_slip E fuel apdu s = some (.returns .SW_OK s')) :
    apdu.p2 < 10 ∧
    ∃ din I cipher before,
      I = E.md_hmac_sha512 (key_seed_of apdu.p1) din ∧
      I.take 32 ++ I.drop 32 = I ∧ (I.take 32).length = 32 ∧ (I.drop 32).length = 32 ∧
      0 < mpi_read_binary (I.take 32) ∧
      mpi_read_binary (I.take 32) < (E.ecp_group_load (curve_of apdu.p1)).N ∧
      E.mkek_encrypt I = some cipher ∧
      s'.files (E.EF_MASTER_SEED ||| apdu.p2) = some (apdu.p1 :: memcpy I 0 cipher) ∧
      s'.calls = before ++
        [Call.md_hmac (key_seed_of apdu.p1) din,
         Call.file_new (E.EF_MASTER_SEED ||| apdu.p2),
         Call.mkek_encrypt I,
         Call.flash_write_data_to_file (E.EF_MASTER_SEED ||| apdu.p2)
           (apdu.p1 :: memcpy I 0 cipher),
         Call.low_flash_available] := by
  unfold cmd_bip_slip at h
  rw [if_pos hp1] at h
  unfold cmd_generate at h
  split at h
  · simp at h
  · rename_i hp2
    refine ⟨Nat.lt_of_not_le hp2, ?_⟩
    simp only at h
    split at h
    · simp at h
    · rename_i seed calls hloop
      have hseed0 : ((uninit E 65).drop 1).length = 64 := by simp [uninit_length]
      have hlen : (if apdu.data.length = 0 then
            memcpy ((uninit E 65).drop 1) 0 ((E.random_gen 64).take 64)
          else memcpy ((uninit E 65).drop 1) 0
            (apdu.data.take (if apdu.data.length = 0 then 64 else min apdu.data.length 64))).length
          = 64 := by
        split
        · rw [memcpy_zero]
          simp only [List.length_append, List.length_take, List.length_drop, uninit_length]
          omega
        · rw [memcpy_zero]
          simp only [List.length_append, List.length_take, List.length_drop, uninit_length]
          omega
      obtain ⟨din, more, hI, hcalls, hpos, hlt⟩ :=
        master_loop_exit E _ _ hH fuel _ _ _ seed calls hlen hloop
      have hI64 : seed.length = 64 := by rw [hI]; exact hH _ _
      have hcurve : (if apdu.p1 = 0x1 then E.ecp_group_load .MBEDTLS_ECP_DP_SECP256K1
          else E.ecp_group_load .MBEDTLS_ECP_DP_SECP256R1)
          = E.ecp_group_load (curve_of apdu.p1) := by
        unfold curve_of
        split <;> rfl
      rw [hcurve] at hlt
      split at h
      · simp at h
      · rename_i cipher henc
        split at h
        · simp only [Option.some.injEq, cmd_result.returns.injEq, true_and] at h
          refine ⟨din, seed, cipher,
            (if apdu.data.length = 0 then s.calls ++ [Call.random_gen 64] else s.calls) ++ more,
            hI, List.take_append_drop 32 seed, ?_, ?_, hpos,
            hlt, henc, ?_, ?_⟩
          · simp [hI64]
          · simp [hI64]
          · rw [← h]
            simp
          · rw [← h]
            simp [hcalls, key_seed_of]
        · simp at h

/-- C10 on Scenario A: generate a secp256r1 master in slot 0 from random bytes. -/
theorem cmd_bip_slip_master_record_witness :
    (∀ key data, ((demo_env hmac_small).md_hmac_sha512 key data).length = 64) ∧
    cmd_bip_slip (demo_env hmac_small) 1 { p1 := 0x2, p2 := 0, data := [] } empty_state
      = some (.returns .SW_OK demo_master_state) ∧
    ((0 : Nat) < 10 ∧
      ∃ din I cipher before,
        I = (demo_env hmac_small).md_hmac_sha512 (key_seed_of 0x2) din ∧
        I.take 32 ++ I.drop 32 = I ∧ (I.take 32).length = 32 ∧ (I.drop 32).length = 32 ∧
        0 < mpi_read_binary (I.take 32) ∧
        mpi_read_binary (I.take 32) < ((demo_env hmac_small).ecp_group_load (curve_of 0x2)).N ∧
        (demo_env hmac_small).mkek_encrypt I = some cipher ∧
        demo_master_state.files ((demo_env hmac_small).EF_MASTER_SEED ||| 0)
          = some (0x2 :: memcpy I 0 cipher) ∧
        demo_master_state.calls = before ++
          [Call.md_hmac (key_seed_of 0x2) din,
           Call.file_new ((demo_env hmac_small).EF_MASTER_SEED ||| 0),
           Call.mkek_encrypt I,
           Call.flash_write_data_to_file ((demo_env hmac_small).EF_MASTER_SEED ||| 0)
             (0x2 :: memcpy I 0 cipher),
           Call.low_flash_available]) ∧
    demo_master_state.files 0x1110
      = some (0x2 :: (be_bytes 1000 32 ++ List.range 32).map (fun x => x ^^^ 1)) :=
  ⟨by intro key data; simp [demo_env, hmac_small, be_bytes_length], rfl,
   cmd_bip_slip_master_record (demo_env hmac_small) 1 { p1 := 0x2, p2 := 0, data := [] }
     empty_state demo_master_state
     (by intro key data; simp [demo_env, hmac_small, be_bytes_length]) (by decide) rfl,
   by decide⟩

/-- C12 (counterexample): four derive-path runs in which `node_derive_bip_path` returns four
different errors (no record in slot 5; a KEK decryption failure; the stored curve tag 9; a
hardened step from the root scalar 0) all end with the same status word `SW_EXEC_ERROR`. -/
theorem cmd_bip_slip_error_status_counterexample :
    ((node_derive_bip_path (demo_env hmac_small) 1 demo_master_state.files [0x05] 1 [] []).map
        (fun p => p.r) = some .CCID_ERR_FILE_NOT_FOUND ∧
      returned_sw (cmd_bip_slip (demo_env hmac_small) 1 demo_slot5_apdu demo_master_state)
        = some .SW_EXEC_ERROR) ∧
    ((node_derive_bip_path demo_env_kek_fail 1 demo_master_state.files [0x00, 0x80000001] 2
        [] []).map (fun p => p.r) = some .CCID_EXEC_ERROR ∧
      returned_sw (cmd_bip_slip demo_env_kek_fail 1 demo_derive_apdu demo_master_state)
        = some .SW_EXEC_ERROR) ∧
    ((node_derive_bip_path (demo_env hmac_small) 1
        (state_with_master (0x9 :: List.replicate 64 0x01)).files [0x00, 0x80000001] 2
        [] []).map (fun p => p.r) = some .CCID_WRONG_DATA ∧
      returned_sw (cmd_bip_slip (demo_env hmac_small) 1 demo_derive_apdu
        (state_with_master (0x9 :: List.replicate 64 0x01))) = some .SW_EXEC_ERROR) ∧
    ((node_derive_bip_path (demo_env hmac_small) 1
        (state_with_master (0x2 :: List.replicate 64 0x01)).files [0x00, 0x80000001] 2
        [] []).map (fun p => p.r) = some .CCID_ERR_NULL_PARAM ∧
      returned_sw (cmd_bip_slip (demo_env hmac_small) 1 demo_derive_apdu
        (state_with_master (0x2 :: List.replicate 64 0x01))) = some .SW_EXEC_ERROR) := by
  refine ⟨⟨by decide, by decide⟩, ⟨by decide, by decide⟩, ⟨by decide, by decide⟩,
    ⟨by decide, by decide⟩⟩

/-- C12 (amended): for every derive-path request (`P1 = 3`, non-empty payload) whose TLV loop
ends normally with the path `path` of `n` elements: if the file of the selector slot has no
data, `node_derive_bip_path` returns `CCID_ERR_FILE_NOT_FOUND` and the command returns
`SW_EXEC_ERROR`; and whatever code other than `CCID_OK` `node_derive_bip_path` returns, the
command returns the one status word `SW_EXEC_ERROR`.  In both cases the response buffer and the
files are left as they were. -/
theorem cmd_bip_slip_error_status (E : Env) (fuel : Nat) (apdu : apdu_t) (s : State)
    (path : List Nat) (n : Nat)
    (hp1 : apdu.p1 = 0x3) (hnc : apdu.data ≠ [])
    (hparse : parse_path (E.walk_tlv apdu.data) (List.replicate MAX_PATH_DEPTH 0) 0
      = .parsed path n) :
    (s.files (E.EF_MASTER_SEED ||| path.getD 0 0) = none →
      (node_derive_bip_path E fuel s.files path n (uninit E 32) (uninit E 4)).map (fun p => p.r)
        = some .CCID_ERR_FILE_NOT_FOUND ∧
      cmd_bip_slip E fuel apdu s = some (.returns .SW_EXEC_ERROR
        { s with calls := s.calls ++ [Call.node_derive_bip_path path n] ++
            [Call.search_dynamic_file (E.EF_MASTER_SEED ||| path.getD 0 0)] })) ∧
    (∀ p, node_derive_bip_path E fuel s.files path n (uninit E 32) (uninit E 4) = some p →
      p.r ≠ .CCID_OK →
      cmd_bip_slip E fuel apdu s = some (.returns .SW_EXEC_ERROR
        { s with calls := s.calls ++ [Call.node_derive_bip_path path n] ++ p.calls })) := by
  have hlen : ¬ apdu.data.length = 0 := by
    intro h
    exact hnc (List.length_eq_zero.mp h)
  have hgen : ∀ p, node_derive_bip_path E fuel s.files path n (uninit E 32) (uninit E 4) = some p →
      p.r ≠ .CCID_OK →
      cmd_bip_slip E fuel apdu s = some (.returns .SW_EXEC_ERROR
        { s with calls := s.calls ++ [Call.node_derive_bip_path path n] ++ p.calls }) := by
    intro p hp hr
    unfold cmd_bip_slip
    rw [if_neg (by rw [hp1]; decide), if_pos hp1]
    unfold cmd_derive
    rw [if_neg hlen, hparse]
    simp only [hp]
    rw [if_pos hr]
  refine ⟨?_, hgen⟩
  intro hfile
  have hp : node_derive_bip_path E fuel s.files path n (uninit E 32) (uninit E 4)
      = some { r := .CCID_ERR_FILE_NOT_FOUND, ctx := mbedtls_ecp_keypair_init,
               chain := uninit E 32, fingerprint := uninit E 4,
               calls := [Call.search_dynamic_file (E.EF_MASTER_SEED ||| path.getD 0 0)] } := by
    unfold node_derive_bip_path
    simp only [hfile]
  refine ⟨by rw [hp]; rfl, ?_⟩
  rw [hgen _ hp (by simp)]

/-- C12 (amended) on Scenario D: the depth-0 path `[0x05]` with no record in slot 5. -/
theorem cmd_bip_slip_error_status_witness :
    demo_slot5_apdu.p1 = 0x3 ∧ demo_slot5_apdu.data ≠ [] ∧
    parse_path ((demo_env hmac_small).walk_tlv demo_slot5_apdu.data)
      (List.replicate MAX_PATH_DEPTH 0) 0 = .parsed (0x05 :: List.replicate 15 0) 1 ∧
    demo_master_state.files
      ((demo_env hmac_small).EF_MASTER_SEED ||| (0x05 :: List.replicate 15 0).getD 0 0) = none ∧
    returned_sw (cmd_bip_slip (demo_env hmac_small) 1 demo_slot5_apdu demo_master_state)
      = some .SW_EXEC_ERROR :=
  ⟨by decide, by decide, by decide, by decide,
   by
    have h := ((cmd_bip_slip_error_status (demo_env hmac_small) 1 demo_slot5_apdu
      demo_master_state (0x05 :: List.replicate 15 0) 1 (by decide) (by decide)
      (by decide)).1 (by decide)).2
    rw [h]
    rfl⟩

/-- C13: for every parent key pair whose scalar is 0 and every chain code: for a hardened index
`i >= 0x80000000`, `node_derive_bip_child` returns `CCID_ERR_NULL_PARAM` whatever the fuel,
makes no HMAC call and leaves the child key pair and the child chain code as they were; for
`i < 0x80000000` it never returns an error, and it returns `CCID_OK` after one HMAC call when
the first HMAC output has `IL` and `IL mod N` different from 0 (the serialiser writing 33
bytes). -/
theorem node_derive_bip_child_zero_scalar (E : Env) (fuel : Nat)
    (parent : mbedtls_ecp_keypair) (cpar : List Nat) (i : Nat) (child : mbedtls_ecp_keypair)
    (cchild : List Nat) (hd : parent.d = 0) :
    (0x80000000 ≤ i →
      node_derive_bip_child E fuel parent cpar i child cchild =
        some { r := .CCID_ERR_NULL_PARAM, child := child, cchild := cchild, calls := [] }) ∧
    (i < 0x80000000 →
      (∀ res, node_derive_bip_child E fuel parent cpar i child cchild = some res →
        res.r = .CCID_OK) ∧
      ((E.ecp_point_write_binary parent.grp parent.Q).length = 33 →
        mpi_read_binary ((E.md_hmac_sha512 cpar
          (E.ecp_point_write_binary parent.grp parent.Q ++ be_bytes i 4)).take 32) ≠ 0 →
        mpi_read_binary ((E.md_hmac_sha512 cpar
          (E.ecp_point_write_binary parent.grp parent.Q ++ be_bytes i 4)).take 32)
            % parent.grp.N ≠ 0 →
        ∃ res, node_derive_bip_child E (fuel + 1) parent cpar i child cchild = some res ∧
          res.r = .CCID_OK ∧
          res.calls = [Call.md_hmac cpar
            (E.ecp_point_write_binary parent.grp parent.Q ++ be_bytes i 4)])) := by
  constructor
  · intro hi
    unfold node_derive_bip_child
    simp only [hi, if_true, hd]
  · intro hi
    constructor
    · intro res h
      unfold node_derive_bip_child at h
      simp only [Nat.not_le.mpr hi, if_false] at h
      obtain ⟨k, I, data', calls, -, rfl⟩ := bip_child_finish_some E fuel parent cpar i child _ res h
      rfl
    · intro hQ hIL hk
      exact node_derive_bip_child_normal_first E fuel parent cpar i child cchild hi hQ hIL
        (by rw [hd, Nat.add_zero]; exact hk)

/-- C13 on a parent with scalar 0: the hardened index 0x80000001 is refused without an HMAC
call, the normal index 1 is derived. -/
theorem node_derive_bip_child_zero_scalar_witness :
    demo_parent_zero.d = 0 ∧
    ((0x80000000 ≤ 0x80000001 →
      node_derive_bip_child (demo_env hmac_small) 1 demo_parent_zero (List.replicate 32 1)
          0x80000001 demo_parent (List.replicate 32 9) =
        some { r := .CCID_ERR_NULL_PARAM, child := demo_parent, cchild := List.replicate 32 9,
               calls := [] }) ∧
    (0x80000001 < 0x80000000 →
      (∀ res, node_derive_bip_child (demo_env hmac_small) 1 demo_parent_zero
          (List.replicate 32 1) 0x80000001 demo_parent (List.replicate 32 9) = some res →
        res.r = .CCID_OK) ∧
      (((demo_env hmac_small).ecp_point_write_binary demo_parent_zero.grp
          demo_parent_zero.Q).length = 33 →
        mpi_read_binary (((demo_env hmac_small).md_hmac_sha512 (List.replicate 32 1)
          ((demo_env hmac_small).ecp_point_write_binary demo_parent_zero.grp demo_parent_zero.Q
            ++ be_bytes 0x80000001 4)).take 32) ≠ 0 →
        mpi_read_binary (((demo_env hmac_small).md_hmac_sha512 (List.replicate 32 1)
          ((demo_env hmac_small).ecp_point_write_binary demo_parent_zero.grp demo_parent_zero.Q
            ++ be_bytes 0x80000001 4)).take 32) % demo_parent_zero.grp.N ≠ 0 →
        ∃ res, node_derive_bip_child (demo_env hmac_small) (1 + 1) demo_parent_zero
            (List.replicate 32 1) 0x80000001 demo_parent (List.replicate 32 9) = some res ∧
          res.r = .CCID_OK ∧
          res.calls = [Call.md_hmac (List.replicate 32 1)
            ((demo_env hmac_small).ecp_point_write_binary demo_parent_zero.grp
              demo_parent_zero.Q ++ be_bytes 0x80000001 4)]))) ∧
    (node_derive_bip_child (demo_env hmac_small) 1 demo_parent_zero (List.replicate 32 1) 1
        demo_parent_zero (List.replicate 32 9)).map (fun res => (res.r, res.child.d))
      = some (.CCID_OK, 1000) :=
  ⟨by decide,
   node_derive_bip_child_zero_scalar (demo_env hmac_small) 1 demo_parent_zero
     (List.replicate 32 1) 0x80000001 demo_parent (List.replicate 32 9) (by decide),
   by decide⟩

/-- C14 (counterexample): generate-master with the 65-byte seed `AA .. AA BB` returns `SW_OK`,
computes its HMAC over the first 64 bytes of the seed and writes a record to the file of
slot 0. -/
theorem cmd_bip_slip_long_seed_counterexample :
    demo_long_seed_apdu.data.length = 65 ∧
    returned_sw (cmd_bip_slip (demo_env hmac_small) 1 demo_long_seed_apdu empty_state)
      = some .SW_OK ∧
    (returned_state empty_state
        (cmd_bip_slip (demo_env hmac_small) 1 demo_long_seed_apdu empty_state)).calls.take 1
      = [Call.md_hmac k1_seed (List.replicate 64 0xAA)] ∧
    (returned_state empty_state
        (cmd_bip_slip (demo_env hmac_small) 1 demo_long_seed_apdu empty_state)).files 0x1110
      = some (0x1 :: (be_bytes 1000 32 ++ List.range 32).map (fun x => x ^^^ 1)) := by
  refine ⟨by decide, by decide, by decide, by decide⟩

/-- C14 (amended): for every generate-master request (`P1` in {1, 2}): with a seed payload
longer than 64 bytes the command does exactly what it does with the first 64 bytes of that
payload, and with `P2 < 10` it does not return `SW_INCORRECT_P1P2`; with `P2 >= 10` it returns
`SW_INCORRECT_P1P2` and leaves the state, hence the storage, as it was. -/
theorem cmd_bip_slip_seed_and_slot (E : Env) (fuel : Nat) (apdu : apdu_t) (s : State)
    (hp1 : apdu.p1 = 0x1 ∨ apdu.p1 = 0x2) :
    (64 < apdu.data.length →
      cmd_bip_slip E fuel apdu s
        = cmd_bip_slip E fuel { apdu with data := apdu.data.take 64 } s) ∧
    (apdu.p2 < 10 → ∀ sw s', cmd_bip_slip E fuel apdu s = some (.returns sw s') →
      sw ≠ .SW_INCORRECT_P1P2) ∧
    (10 ≤ apdu.p2 → cmd_bip_slip E fuel apdu s = some (.returns .SW_INCORRECT_P1P2 s)) := by
  refine ⟨?_, ?_, ?_⟩
  · intro hlong
    have h1 : ¬ apdu.data.length = 0 := by omega
    have h2 : (apdu.data.take 64).length = 64 := by
      rw [List.length_take]; omega
    have h3 : ¬ (apdu.data.take 64).length = 0 := by omega
    unfold cmd_bip_slip
    simp only [if_pos hp1]
    unfold cmd_generate
    simp [h1, h2, Nat.min_eq_right (Nat.le_of_lt hlong), List.take_take]
  · intro hp2 sw s' h
    unfold cmd_bip_slip at h
    rw [if_pos hp1] at h
    unfold cmd_generate at h
    rw [if_neg (by omega)] at h
    simp only at h
    split at h
    · simp at h
    · split at h
      · simp only [Option.some.injEq, cmd_result.returns.injEq] at h
        rw [← h.1]; decide
      · split at h
        · simp only [Option.some.injEq, cmd_result.returns.injEq] at h
          rw [← h.1]; decide
        · simp only [Option.some.injEq, cmd_result.returns.injEq] at h
          rw [← h.1]; decide
  · intro hp2
    unfold cmd_bip_slip
    rw [if_pos hp1]
    unfold cmd_generate
    rw [if_pos hp2]

/-- C14 (amended) on a 65-byte seed and on slot 10. -/
theorem cmd_bip_slip_seed_and_slot_witness :
    (demo_long_seed_apdu.p1 = 0x1 ∨ demo_long_seed_apdu.p1 = 0x2) ∧
    64 < demo_long_seed_apdu.data.length ∧
    cmd_bip_slip (demo_env hmac_small) 1 demo_long_seed_apdu empty_state
      = cmd_bip_slip (demo_env hmac_small) 1
          { demo_long_seed_apdu with data := demo_long_seed_apdu.data.take 64 } empty_state ∧
    returned_sw (cmd_bip_slip (demo_env hmac_small) 1
      { p1 := 0x2, p2 := 10, data := [] } demo_master_state) = some .SW_INCORRECT_P1P2 :=
  ⟨by decide, by decide,
   (cmd_bip_slip_seed_and_slot (demo_env hmac_small) 1 demo_long_seed_apdu empty_state
     (by decide)).1 (by decide),
   by decide⟩

/-- C15 (the code at the failing input): for `P1 = 0`, `P1 = 4` and `P1 = 0xFF`, none of which
is a supported mode, `cmd_bip_slip` returns `SW_OK` and leaves the state as it was. -/
theorem cmd_bip_slip_unsupported_p1 :
    cmd_bip_slip (demo_env hmac_small) 1 { p1 := 0x0, p2 := 0, data := [] } demo_master_state
      = some (.returns .SW_OK demo_master_state) ∧
    cmd_bip_slip (demo_env hmac_small) 1 { p1 := 0x4, p2 := 3, data := [0x02, 0x01, 0x00] }
      demo_master_state = some (.returns .SW_OK demo_master_state) ∧
    cmd_bip_slip (demo_env hmac_small) 1 { p1 := 0xFF, p2 := 0xFF, data := [] } demo_master_state
      = some (.returns .SW_OK demo_master_state) ∧
    returned_sw (cmd_bip_slip (demo_env hmac_small) 1
      { p1 := 0x4, p2 := 3, data := [0x02, 0x01, 0x00] } demo_master_state) = some .SW_OK := by
  refine ⟨rfl, rfl, rfl, by decide⟩

/-- C16: for every request and every state, if `cmd_bip_slip` returns a status other than
`SW_OK`, the response buffer `res_APDU` and its length `res_APDU_size` are what they were before
the command. -/
theorem cmd_bip_slip_no_partial_output (E : Env) (fuel : Nat) (apdu : apdu_t) (s s' : State)
    (sw : sw_status) (h : cmd_bip_slip E fuel apdu s = some (.returns sw s'))
    (hsw : sw ≠ .SW_OK) :
    s'.res_APDU = s.res_APDU ∧ s'.res_APDU_size = s.res_APDU_size := by
  unfold cmd_bip_slip at h
  split at h
  · unfold cmd_generate at h
    split at h
    · simp only [Option.some.injEq, cmd_result.returns.injEq] at h
      rw [← h.2]; exact ⟨rfl, rfl⟩
    · simp only at h
      split at h
      · simp at h
      · split at h
        · simp only [Option.some.injEq, cmd_result.returns.injEq] at h
          rw [← h.2]; exact ⟨rfl, rfl⟩
        · split at h
          · simp only [Option.some.injEq, cmd_result.returns.injEq] at h
            exact absurd h.1.symm hsw
          · simp only [Option.some.injEq, cmd_result.returns.injEq] at h
            rw [← h.2]; exact ⟨rfl, rfl⟩
  · split at h
    · unfold cmd_derive at h
      split at h
      · simp only [Option.some.injEq, cmd_result.returns.injEq] at h
        rw [← h.2]; exact ⟨rfl, rfl⟩
      · split at h
        · simp only [Option.some.injEq, cmd_result.returns.injEq] at h
          rw [← h.2]; exact ⟨rfl, rfl⟩
        · simp at h
        · split at h
          · simp at h
          · simp only at h
            split at h
            · simp only [Option.some.injEq, cmd_result.returns.injEq] at h
              rw [← h.2]; exact ⟨rfl, rfl⟩
            · simp only [Option.some.injEq, cmd_result.returns.injEq] at h
              exact absurd h.1.symm hsw
    · simp only [Option.some.injEq, cmd_result.returns.injEq] at h
      exact absurd h.1.symm hsw

/-- C16 on a request that fails (no record in slot 5) after a response of 78 bytes was built. -/
theorem cmd_bip_slip_no_partial_output_witness :
    cmd_bip_slip (demo_env hmac_small) 1 demo_slot5_apdu demo_derive_state
      = some (.returns .SW_EXEC_ERROR demo_error_state) ∧
    sw_status.SW_EXEC_ERROR ≠ .SW_OK ∧
    (demo_error_state.res_APDU = demo_derive_state.res_APDU ∧
      demo_error_state.res_APDU_size = demo_derive_state.res_APDU_size) ∧
    demo_error_state.res_APDU_size = 78 :=
  ⟨rfl, by decide,
   cmd_bip_slip_no_partial_output (demo_env hmac_small) 1 demo_slot5_apdu demo_derive_state
     demo_error_state .SW_EXEC_ERROR rfl (by decide),
   by decide⟩

/-- C17: for every derive-path request (`P1 = 3`, non-empty payload) in which an element among
the first `MAX_PATH_DEPTH + 1` has a tag other than `0x02` or a length wrong for its position,
and for every fuel and state: the command returns `SW_WRONG_DATA` and leaves the state as it
was, so that no call of `search_dynamic_file`, `file_get_data` or the KEK is recorded; the
result is the same for every content of the storage. -/
theorem cmd_bip_slip_reject_before_storage (E : Env) (fuel : Nat) (apdu : apdu_t) (s : State)
    (k : Nat) (hk : k < (E.walk_tlv apdu.data).length)
    (hp1 : apdu.p1 = 0x3) (hnc : apdu.data ≠ []) (hk16 : k ≤ MAX_PATH_DEPTH)
    (hbad : bad_element k ((E.walk_tlv apdu.data).get ⟨k, hk⟩)) :
    cmd_bip_slip E fuel apdu s = some (.returns .SW_WRONG_DATA s) ∧
    (∀ files : Nat → Option (List Nat),
      cmd_bip_slip E fuel apdu { s with files := files }
        = some (.returns .SW_WRONG_DATA { s with files := files })) ∧
    (∀ s1 s2 : State, returned_sw (cmd_bip_slip E fuel apdu s1)
      = returned_sw (cmd_bip_slip E fuel apdu s2)) := by
  have hparse : parse_path (E.walk_tlv apdu.data) (List.replicate MAX_PATH_DEPTH 0) 0
      = .wrong_data := by
    apply parse_path_bad_early
    exact ⟨k, hk, by simpa using hk16, by simpa using hbad⟩
  have hlen : ¬ apdu.data.length = 0 := by
    intro h
    exact hnc (List.length_eq_zero.mp h)
  have hall : ∀ t : State, cmd_bip_slip E fuel apdu t = some (.returns .SW_WRONG_DATA t) := by
    intro t
    unfold cmd_bip_slip
    rw [if_neg (by rw [hp1]; decide), if_pos hp1]
    unfold cmd_derive
    rw [if_neg hlen, hparse]
  refine ⟨hall s, fun files => hall _, ?_⟩
  intro s1 s2
  rw [hall s1, hall s2]
  rfl

/-- C17 on a request whose second element has the tag `0x04`, with and without a master in
slot 0. -/
theorem cmd_bip_slip_reject_before_storage_witness :
    demo_bad_tag_apdu.p1 = 0x3 ∧ demo_bad_tag_apdu.data ≠ [] ∧ 1 ≤ MAX_PATH_DEPTH ∧
    (∃ hk : 1 < ((demo_env hmac_small).walk_tlv demo_bad_tag_apdu.data).length,
      bad_element 1 (((demo_env hmac_small).walk_tlv demo_bad_tag_apdu.data).get ⟨1, hk⟩)) ∧
    (cmd_bip_slip (demo_env hmac_small) 1 demo_bad_tag_apdu demo_master_state
        = some (.returns .SW_WRONG_DATA demo_master_state) ∧
      (∀ files : Nat → Option (List Nat),
        cmd_bip_slip (demo_env hmac_small) 1 demo_bad_tag_apdu
            { demo_master_state with files := files }
          = some (.returns .SW_WRONG_DATA { demo_master_state with files := files })) ∧
      (∀ s1 s2 : State, returned_sw (cmd_bip_slip (demo_env hmac_small) 1 demo_bad_tag_apdu s1)
        = returned_sw (cmd_bip_slip (demo_env hmac_small) 1 demo_bad_tag_apdu s2))) ∧
    returned_sw (cmd_bip_slip (demo_env hmac_small) 1 demo_bad_tag_apdu empty_state)
      = some .SW_WRONG_DATA :=
  ⟨by decide, by decide, by decide, ⟨by decide, by decide⟩,
   cmd_bip_slip_reject_before_storage (demo_env hmac_small) 1 demo_bad_tag_apdu
     demo_master_state 1 (by decide) (by decide) (by decide) (by decide) (by decide),
   by decide⟩

/-- C18 (counterexample): under the HMAC `hmac_zero`, which returns `IL = 0` on every call,
neither generate-master on secp256k1, slot 0, nor the derivation of the child 7 of
`demo_parent` returns, whatever the number of iterations allowed: no cap ends the loops and no
status is reported. -/
theorem retry_loops_counterexample :
    (∀ fuel, cmd_bip_slip (demo_env hmac_zero) fuel { p1 := 0x1, p2 := 0, data := [] }
      empty_state = none) ∧
    (∀ fuel, node_derive_bip_child (demo_env hmac_zero) fuel demo_parent (List.replicate 32 1) 7
      demo_parent (List.replicate 32 1) = none) :=
  ⟨fun fuel => cmd_generate_none (demo_env hmac_zero) hmac_zero_spec.1 hmac_zero_spec.2 fuel _ _
      (by decide) (by decide),
   fun fuel => node_derive_bip_child_none (demo_env hmac_zero) hmac_zero_spec.2 fuel _ _ _ _ _
      (by decide)⟩

/-- C18 (amended): the retry loops of master generation and of child derivation have no
iteration cap.  For every HMAC collaborator with 64-byte outputs whose `IL` is 0 on every call,
and for every number of iterations allowed: generate-master (`P1` in {1, 2}, `P2 < 10`) is
still in its loop, and so is `node_derive_bip_child` (for every index, the parent scalar being
non-zero if the index is hardened); neither reports a status. -/
theorem retry_loops_unbounded (E : Env)
    (hH : ∀ key data, (E.md_hmac_sha512 key data).length = 64)
    (hz : ∀ key data, mpi_read_binary ((E.md_hmac_sha512 key data).take 32) = 0) :
    (∀ (fuel : Nat) (apdu : apdu_t) (s : State), (apdu.p1 = 0x1 ∨ apdu.p1 = 0x2) →
      apdu.p2 < 10 → cmd_bip_slip E fuel apdu s = none) ∧
    (∀ (fuel : Nat) (parent : mbedtls_ecp_keypair) (cpar : List Nat) (i : Nat)
      (child : mbedtls_ecp_keypair) (cchild : List Nat),
      (0x80000000 ≤ i → parent.d ≠ 0) →
      node_derive_bip_child E fuel parent cpar i child cchild = none) :=
  ⟨fun fuel apdu s hp1 hp2 => cmd_generate_none E hH hz fuel apdu s hp1 hp2,
   fun fuel parent cpar i child cchild hd =>
     node_derive_bip_child_none E hz fuel parent cpar i child cchild hd⟩

/-- C18 (amended) on the HMAC `hmac_zero`. -/
theorem retry_loops_unbounded_witness :
    (∀ key data, ((demo_env hmac_zero).md_hmac_sha512 key data).length = 64) ∧
    (∀ key data,
      mpi_read_binary (((demo_env hmac_zero).md_hmac_sha512 key data).take 32) = 0) ∧
    ((∀ (fuel : Nat) (apdu : apdu_t) (s : State), (apdu.p1 = 0x1 ∨ apdu.p1 = 0x2) →
      apdu.p2 < 10 → cmd_bip_slip (demo_env hmac_zero) fuel apdu s = none) ∧
    (∀ (fuel : Nat) (parent : mbedtls_ecp_keypair) (cpar : List Nat) (i : Nat)
      (child : mbedtls_ecp_keypair) (cchild : List Nat),
      (0x80000000 ≤ i → parent.d ≠ 0) →
      node_derive_bip_child (demo_env hmac_zero) fuel parent cpar i child cchild = none)) :=
  ⟨hmac_zero_spec.1, hmac_zero_spec.2,
   retry_loops_unbounded (demo_env hmac_zero) hmac_zero_spec.1 hmac_zero_spec.2⟩

/-- C19: under a 64-byte HMAC, whenever `node_derive_bip_child` returns `CCID_OK`: all its HMAC
calls are under the same key, the parent chain code; for every two successive calls the first
candidate was rejected by the test of the loop and the second input is exactly the 37 bytes
`0x01`, `IR` (bytes 32..63 of the rejected output) and the index as 4 big-endian bytes; and the
child chain code and the child scalar both come from the HMAC output of the last call. -/
theorem node_derive_bip_child_retry_chain (E : Env) (fuel : Nat)
    (parent : mbedtls_ecp_keypair) (cpar : List Nat) (i : Nat) (child : mbedtls_ecp_keypair)
    (cchild : List Nat) (res : child_result)
    (hH : ∀ key data, (E.md_hmac_sha512 key data).length = 64)
    (h : node_derive_bip_child E fuel parent cpar i child cchild = some res)
    (hr : res.r = .CCID_OK) :
    ∃ (inputs : List (List Nat)) (last : List Nat),
      res.calls = (inputs ++ [last]).map (Call.md_hmac cpar) ∧
      List.Chain' (child_retry E cpar parent.d parent.grp.N i) (inputs ++ [last]) ∧
      res.cchild = IR_of E cpar last ∧
      res.child.d = (IL_of E cpar last + parent.d) % parent.grp.N ∧
      IL_of E cpar last ≠ 0 ∧ res.child.d ≠ 0 := by
  obtain ⟨data, hlen, hf⟩ := node_derive_bip_child_data E fuel parent cpar i child cchild res h hr
  obtain ⟨k, I, data', calls, hl, rfl⟩ := bip_child_finish_some E fuel parent cpar i child data res hf
  obtain ⟨hk0, hk, hil⟩ := bip_child_loop_exit E cpar parent.d parent.grp.N i fuel data [] k I data'
    calls hl
  obtain ⟨inputs, last, -, hcalls, hchain, hI⟩ :=
    bip_child_loop_chain E cpar parent.d parent.grp.N i hH fuel data [] k I data' calls hlen hl
  subst hI
  refine ⟨inputs, last, by simpa using hcalls, hchain, rfl, hk, hil, hk0⟩

/-- C19 on the hardened child 0x80000001 of `demo_parent`, with one rejected iteration. -/
theorem node_derive_bip_child_retry_chain_witness :
    (∀ key data, ((demo_env hmac_retry_once).md_hmac_sha512 key data).length = 64) ∧
    node_derive_bip_child (demo_env hmac_retry_once) 2 demo_parent (List.replicate 32 1)
      0x80000001 demo_parent (List.replicate 32 1) = some demo_child ∧
    demo_child.r = .CCID_OK ∧
    (∃ (inputs : List (List Nat)) (last : List Nat),
      demo_child.calls = (inputs ++ [last]).map (Call.md_hmac (List.replicate 32 1)) ∧
      List.Chain' (child_retry (demo_env hmac_retry_once) (List.replicate 32 1) demo_parent.d
        demo_parent.grp.N 0x80000001) (inputs ++ [last]) ∧
      demo_child.cchild = IR_of (demo_env hmac_retry_once) (List.replicate 32 1) last ∧
      demo_child.child.d = (IL_of (demo_env hmac_retry_once) (List.replicate 32 1) last
        + demo_parent.d) % demo_parent.grp.N ∧
      IL_of (demo_env hmac_retry_once) (List.replicate 32 1) last ≠ 0 ∧
      demo_child.child.d ≠ 0) ∧
    demo_child.calls.length = 2 :=
  ⟨by intro key data; simp only [demo_env, hmac_retry_once]; split <;> simp [be_bytes_length],
   by decide, by decide,
   node_derive_bip_child_retry_chain (demo_env hmac_retry_once) 2 demo_parent
     (List.replicate 32 1) 0x80000001 demo_parent (List.replicate 32 1) demo_child
     (by intro key data; simp only [demo_env, hmac_retry_once]; split <;> simp [be_bytes_length])
     (by decide) (by decide),
   by decide⟩

/-- C20: for every stored 65-byte record `tag :: cipher` in the selected slot that the KEK
decrypts to 64 bytes `plain` whose scalar `plain[0:32]` is not 0, and every path and fuel:
`node_derive_bip_path` never returns `CCID_ERR_NULL_PARAM`; and when it returns `CCID_OK` the
node it ends at has a non-zero scalar, with `0 < d < N` when the node is not the root and the
curve order `N` is positive.  As every prefix of a path is a path, this holds of every node
reached. -/
theorem node_derive_bip_path_scalar_nonzero (E : Env) (fuel : Nat)
    (files : Nat → Option (List Nat)) (path : List Nat) (path_len : Nat)
    (chain fp : List Nat) (tag : Nat) (cipher plain : List Nat) (res : path_result)
    (hfile : files (E.EF_MASTER_SEED ||| path.getD 0 0) = some (tag :: cipher))
    (hlen : cipher.length = 64)
    (hdec : E.mkek_decrypt cipher = some plain) (hplain : plain.length = 64)
    (hd : mpi_read_binary (plain.take 32) ≠ 0)
    (h : node_derive_bip_path E fuel files path path_len chain fp = some res) :
    res.r ≠ .CCID_ERR_NULL_PARAM ∧
    (res.r = .CCID_OK →
      res.ctx.d ≠ 0 ∧
      ((path.take path_len).drop 1 ≠ [] → 0 < res.ctx.grp.N →
        0 < res.ctx.d ∧ res.ctx.d < res.ctx.grp.N)) := by
  have hm1 : memcpy (uninit E 65) 0 ((tag :: cipher).take 65) = tag :: cipher := by
    have hl : (tag :: cipher).length = 65 := by simp [hlen]
    have ht : (tag :: cipher).take 65 = tag :: cipher := by
      rw [← hl]; exact List.take_length _
    rw [ht, memcpy_zero, hl]
    simp [uninit_length]
  have hm2 : memcpy (tag :: cipher) 1 plain = tag :: plain := by
    have hd : cipher.drop 64 = [] := List.drop_of_length_le (by omega)
    have := memcpy_append_left [tag] cipher plain
    simpa [hplain, hd] using this
  unfold node_derive_bip_path at h
  simp only [hfile, hm1, List.drop_succ_cons, List.drop_zero, hdec, hm2,
    List.getD_cons_zero] at h
  split at h
  · obtain ⟨h1, h2, h3, h4⟩ := bip_path_loop_nonzero E fuel _ _ _ _ _ res hd h
    refine ⟨by rw [h1]; decide, fun _ => ⟨h2, ?_⟩⟩
    intro hne hN
    refine ⟨Nat.pos_of_ne_zero h2, ?_⟩
    have := h4 hne (by rw [← h3]; exact hN)
    rw [← h3] at this
    exact this
  · simp only [Option.some.injEq] at h
    subst h
    exact ⟨by simp, fun hr => by simp at hr⟩

/-- C20 on the path `[0x00, 0x80000001]` from the master of `demo_master_state`. -/
theorem node_derive_bip_path_scalar_nonzero_witness :
    demo_master_state.files ((demo_env hmac_small).EF_MASTER_SEED ||| [0x00, 0x80000001].getD 0 0)
      = some (0x2 :: (be_bytes 1000 32 ++ List.range 32).map (fun x => x ^^^ 1)) ∧
    mpi_read_binary ((be_bytes 1000 32 ++ List.range 32).take 32) ≠ 0 ∧
    node_derive_bip_path (demo_env hmac_small) 1 demo_master_state.files [0x00, 0x80000001] 2
      (uninit (demo_env hmac_small) 32) (uninit (demo_env hmac_small) 4)
      = some demo_path_result ∧
    (demo_path_result.r ≠ .CCID_ERR_NULL_PARAM ∧
      (demo_path_result.r = .CCID_OK →
        demo_path_result.ctx.d ≠ 0 ∧
        (([0x00, 0x80000001].take 2).drop 1 ≠ [] → 0 < demo_path_result.ctx.grp.N →
          0 < demo_path_result.ctx.d ∧
          demo_path_result.ctx.d < demo_path_result.ctx.grp.N))) ∧
    demo_path_result.ctx.d = 2000 :=
  ⟨by decide, by decide, by decide,
   node_derive_bip_path_scalar_nonzero (demo_env hmac_small) 1 demo_master_state.files
     [0x00, 0x80000001] 2 (uninit (demo_env hmac_small) 32) (uninit (demo_env hmac_small) 4) 0x2
     ((be_bytes 1000 32 ++ List.range 32).map (fun x => x ^^^ 1))
     (be_bytes 1000 32 ++ List.range 32) demo_path_result (by decide) (by decide) (by decide)
     (by decide) (by decide) (by decide),
   by decide⟩

end PicoHSM
